import Mathlib

/-!
Verification of the task-graph planner, the import scanner, the tsconfig sync
generator and the tsc plugin option normalization of this workspace tooling
repository, against a shallow embedding of the TypeScript sources.

Embedded sources:
* `packages/workspace/src/tasks-runner/run-command/utils.ts` (task planner)
* `packages/nx/src/project-graph/build-dependencies/pre-process-file.ts` and
  `.../utils.ts` (import scanner, nx-ignore-next-line handling, loadChildren)
* `packages/nx/src/tasks-runner/life-cycles/tui-summary-life-cycle.ts` and
  `packages/workspace/src/tasks-runner/run-one-terminal-output-life-cycle.ts`
* `packages/tsc/src/generators/sync/sync.ts` and the tsc plugin module
  (`normalizePluginOptions`, `buildTscTargets`)

JavaScript is modelled as follows: machine integers are `Nat`/`Int` (no overflow
is relevant here), `undefined`/`null` become `Option`, exceptions and
`process.exit` become `Except`, JS `Map`/`Set`/objects become insertion-ordered
association lists, and unbounded loops take an explicit fuel argument.
-/

set_option linter.unusedVariables false
set_option linter.unnecessarySeqFocus false

deriving instance DecidableEq for Except

namespace Nx

/-- Association-list lookup keyed by strings; models JS object / `Map` indexing
(first binding wins, which matches maps that are only extended with fresh keys
or updated in place). -/
def alookup {α : Type} (m : List (String × α)) (k : String) : Option α :=
  (m.find? (fun p => p.1 == k)).map (·.2)

/-- JS truthiness of a `string | undefined` value: `undefined` and the empty
string are falsy. -/
def truthy : Option String → Bool
  | none => false
  | some s => s ≠ ""

/-! ## Task planner data model
(`packages/workspace/src/tasks-runner/run-command/utils.ts`) -/

/-- One entry of a target's `dependsOn` list (`TargetDependencyConfig` in
`@nrwl/devkit`): `projects` is the literal string `"dependencies"` or `"self"`,
`target` is the depended-on target name. -/
structure TargetDependencyConfig where
  projects : String
  target : String
deriving Repr, DecidableEq

/-- The slice of a target's configuration consulted by the planner:
the names of its declared `configurations` (an absent mapping is `none`),
its `defaultConfiguration` and its `dependsOn` rules. -/
structure TargetConfiguration where
  configurations : Option (List String) := none
  defaultConfiguration : Option String := none
  dependsOn : Option (List TargetDependencyConfig) := none
deriving Repr, DecidableEq

/-- The `data` field of a project-graph node: root path and target map. -/
structure ProjectData where
  root : String
  targets : List (String × TargetConfiguration) := []
deriving Repr, DecidableEq

/-- A node of the project graph (`ProjectGraphNode`). -/
structure ProjectGraphNode where
  name : String
  data : ProjectData
deriving Repr, DecidableEq

/-- A dependency edge entry as consulted by the planner (`dep.target` is the
name of the depended-on project). -/
structure ProjectGraphDependency where
  target : String
deriving Repr, DecidableEq

/-- The project graph as consulted by the planner: first-party nodes, external
nodes and the adjacency map. -/
structure ProjectGraph where
  nodes : List (String × ProjectGraphNode)
  externalNodes : List (String × ProjectGraphNode) := []
  dependencies : List (String × List ProjectGraphDependency) := []
deriving Repr, DecidableEq

/-- The qualified target triple stored on a task. -/
structure QualifiedTarget where
  project : String
  target : String
  configuration : Option String
deriving Repr, DecidableEq

/-- A planned task (`Task` in `@nrwl/devkit`), as created by `createTask`. -/
structure Task where
  id : String
  target : QualifiedTarget
  projectRoot : String
  overrides : List (String × String)
deriving Repr, DecidableEq

/-- Abnormal outcomes of the planner: `output.error` followed by
`process.exit code` (`exitError`), a thrown JS exception (`thrown`), a JS
`TypeError` from dereferencing `undefined` (`typeError`), and exhaustion of the
explicit step budget of the embedding (`fuelExhausted`). -/
inductive PlannerError where
  | exitError (title : String) (bodyLines : List String) (exitCode : Nat)
  | thrown (message : String)
  | typeError (message : String)
  | fuelExhausted
deriving Repr, DecidableEq

/-- Modelled from the spec: `projectHasTarget` from
`packages/workspace/src/utilities/project-graph-utils.ts` is not under `src/`
(only its callers are); per the spec a project "has target T" exactly when its
target map declares `T`. -/
def projectHasTarget (project : ProjectGraphNode) (target : String) : Bool :=
  (alookup project.data.targets target).isSome

/-- Modelled from the spec: `projectHasTargetAndConfiguration` from
`project-graph-utils.ts` is not under `src/`; it holds when the target declares
the named configuration (an absent `configurations` mapping declares nothing,
and an `undefined` configuration is never declared). -/
def projectHasTargetAndConfiguration (project : ProjectGraphNode) (target : String)
    (configuration : Option String) : Bool :=
  match alookup project.data.targets target, configuration with
  | some cfg, some c =>
    match cfg.configurations with
    | some cs => cs.contains c
    | none => false
  | _, _ => false

/-- Task id construction (`getId` in `run-command/utils.ts`):
`project:target` with `:configuration` appended only when the configuration is
truthy. -/
def getId (project target : String) (configuration : Option String) : String :=
  let id := project ++ ":" ++ target
  if truthy configuration then id ++ ":" ++ configuration.getD "" else id

/-- One step of `interpolateOverrides`' regex replacement
`value.replace(/\x7bproject\.([^}]+)\x7d/g, ...)` on the character list of an
override value: each occurrence of `\x7bproject.` followed by a non-empty
brace-free group and a closing brace is replaced; a group containing `.` throws
`Only top-level properties can be interpolated`; the group `name` maps to the
project name, `root` to the project root, and any other group to the string
`undefined` (the JS coercion of an absent metadata property). -/
def interpolateValue (projectName : String) (projectMetadata : ProjectData) :
    List Char → Except String (List Char)
  | [] => .ok []
  | c :: rest =>
    if ("\x7bproject.".toList).isPrefixOf (c :: rest) then
      let rest2 := (c :: rest).drop 9
      let group := rest2.takeWhile (· ≠ '\x7d')
      match hafter : rest2.dropWhile (· ≠ '\x7d') with
      | [] =>
        (interpolateValue projectName projectMetadata rest).map (fun t => c :: t)
      | _ :: tail =>
        if group.isEmpty then
          (interpolateValue projectName projectMetadata rest).map (fun t => c :: t)
        else if group.contains '.' then
          .error "Only top-level properties can be interpolated"
        else
          let repl : List Char :=
            if group = "name".toList then projectName.toList
            else if group = "root".toList then projectMetadata.root.toList
            else "undefined".toList
          (interpolateValue projectName projectMetadata tail).map (fun t => repl ++ t)
    else
      (interpolateValue projectName projectMetadata rest).map (fun t => c :: t)
termination_by cs => cs.length
decreasing_by
  · simp
  · simp only [List.length_cons]
    have h1 : (rest2.dropWhile (· ≠ '\x7d')).length ≤ rest2.length :=
      (List.dropWhile_sublist _).length_le
    rw [hafter] at h1
    have h2 : rest2.length ≤ rest.length + 1 := by
      simp only [rest2, List.drop, List.length_drop, List.length_cons]
      omega
    simp only [List.length_cons] at h1
    omega
  · simp

/-- The `interpolateOverrides` helper of `run-command/utils.ts`: interpolates
`\x7bproject.*\x7d` references in every string-valued override. -/
def interpolateOverrides (args : List (String × String)) (projectName : String)
    (projectMetadata : ProjectData) : Except String (List (String × String)) :=
  args.mapM (fun p => do
    let v ← interpolateValue projectName projectMetadata p.2.toList
    pure (p.1, String.mk v))

/-- Parameters of `createTask` (`TaskParams` in `run-command/utils.ts`). -/
structure TaskParams where
  project : ProjectGraphNode
  target : String
  configuration : Option String
  overrides : List (String × String)
  errorIfCannotFindConfiguration : Bool
deriving Repr, DecidableEq

/-- The configuration resolution performed inside `createTask`: the requested
configuration (with the target's `defaultConfiguration` substituted when none
was requested, mirroring `configuration ??= ...`) is kept only when it is
declared on the target, and dropped to `undefined` otherwise. -/
def resolveConfiguration (project : ProjectGraphNode) (target : String)
    (configuration : Option String) : Option String :=
  let configuration :=
    match configuration with
    | none => (alookup project.data.targets target).bind (·.defaultConfiguration)
    | some c => some c
  if projectHasTargetAndConfiguration project target configuration then configuration
  else none

/-- The `createTask` function of `run-command/utils.ts`: errors (exit 1) when
the project lacks the target; resolves the configuration; errors (exit 1) when
`errorIfCannotFindConfiguration` is set, a configuration was requested (or
defaulted) and it is not declared; otherwise builds the task with interpolated
overrides. -/
def createTask (p : TaskParams) : Except PlannerError Task :=
  if ¬ projectHasTarget p.project p.target then
    .error (.exitError
      ("Cannot find target \x27" ++ p.target ++ "\x27 for project \x27" ++
        p.project.name ++ "\x27") [] 1)
  else
    let configuration :=
      match p.configuration with
      | none => (alookup p.project.data.targets p.target).bind (·.defaultConfiguration)
      | some c => some c
    let config := resolveConfiguration p.project p.target p.configuration
    if p.errorIfCannotFindConfiguration ∧ truthy configuration ∧ ¬ truthy config then
      .error (.exitError
        ("Cannot find configuration \x27" ++ configuration.getD "" ++
          "\x27 for project \x27" ++ p.project.name ++ ":" ++ p.target ++ "\x27") [] 1)
    else
      match interpolateOverrides p.overrides p.project.name p.project.data with
      | .error m => .error (.thrown m)
      | .ok overrides =>
        .ok { id := getId p.project.name p.target config
              target := { project := p.project.name, target := p.target,
                          configuration := config }
              projectRoot := p.project.data.root
              overrides := overrides }

/-- Modelled from the spec: `getDependencyConfigs` (from `tasks-runner/utils.ts`,
not under `src/`) resolves the dependency rules of `(project, target)`: the
target's own `dependsOn` list when declared, otherwise the global
`defaultDependencyConfigs[target]` (the spec's `targetDefaults`, section 6.1);
`undefined` when neither exists. -/
def getDependencyConfigs (graph : ProjectGraph) (project target : String)
    (defaultDependencyConfigs : List (String × List TargetDependencyConfig)) :
    Option (List TargetDependencyConfig) :=
  match (alookup graph.nodes project).bind (fun n => alookup n.data.targets target) with
  | some cfg =>
    match cfg.dependsOn with
    | some d => some d
    | none => alookup defaultDependencyConfigs target
  | none => alookup defaultDependencyConfigs target

/-- The mutable state threaded through the planner: the `tasksMap` (a JS `Map`
in insertion order) and the `seenSet` (a JS `Set` in insertion order). -/
structure PlannerState where
  tasksMap : List (String × Task)
  seenSet : List String
deriving Repr, DecidableEq

/-- JS `Map.prototype.set`: replace in place when the key exists, append
otherwise. -/
def mapSet {α : Type} : List (String × α) → String → α → List (String × α)
  | [], k, v => [(k, v)]
  | (k', v') :: rest, k, v =>
    if k' = k then (k, v) :: rest else (k', v') :: mapSet rest k v

/-- JS `Set.prototype.add`: append when absent. -/
def setAdd (s : List String) (x : String) : List String :=
  if s.contains x then s else s ++ [x]

/-- The lookup `projectGraph.nodes[dep.target] || projectGraph.externalNodes[dep.target]`
performed in the `dependencies` branch of `addTasksForProjectDependencyConfig`. -/
def resolveDepNode (graph : ProjectGraph) (name : String) : Option ProjectGraphNode :=
  match alookup graph.nodes name with
  | some n => some n
  | none => alookup graph.externalNodes name

mutual

/-- The `addTasksForProjectTarget` function of `run-command/utils.ts`: creates
the task for `(project, target, configuration)`, expands each of its dependency
configs, and finally inserts the task into the `tasksMap`. The `fuel` argument
bounds the recursion depth of the embedding; every mutual call decreases it. -/
def addTasksForProjectTarget (fuel : Nat) (params : TaskParams)
    (defaultDependencyConfigs : List (String × List TargetDependencyConfig))
    (projectGraph : ProjectGraph) (st : PlannerState) (path : List String) :
    Except PlannerError PlannerState :=
  match fuel with
  | 0 => .error .fuelExhausted
  | fuel + 1 => do
    let task ← createTask params
    let st ←
      match getDependencyConfigs projectGraph params.project.name params.target
          defaultDependencyConfigs with
      | some dependencyConfigs =>
        addTasksForDependencyConfigs fuel params.project params.target
          params.configuration dependencyConfigs defaultDependencyConfigs
          projectGraph st path
      | none => pure st
    pure { st with tasksMap := mapSet st.tasksMap task.id task }

/-- The `for (const dependencyConfig of dependencyConfigs)` loop inside
`addTasksForProjectTarget`. -/
def addTasksForDependencyConfigs (fuel : Nat) (project : ProjectGraphNode)
    (target : String) (configuration : Option String)
    (dependencyConfigs : List TargetDependencyConfig)
    (defaultDependencyConfigs : List (String × List TargetDependencyConfig))
    (projectGraph : ProjectGraph) (st : PlannerState) (path : List String) :
    Except PlannerError PlannerState :=
  match fuel with
  | 0 => .error .fuelExhausted
  | fuel + 1 =>
    match dependencyConfigs with
    | [] => pure st
    | dependencyConfig :: rest => do
      let st ← addTasksForProjectDependencyConfig fuel project target configuration
        dependencyConfig defaultDependencyConfigs projectGraph st path
      addTasksForDependencyConfigs fuel project target configuration rest
        defaultDependencyConfigs projectGraph st path

/-- The `addTasksForProjectDependencyConfig` function of
`run-command/utils.ts`: marks the project seen, reports a circular dependency
(exit 1) when the task id is already on the DFS `path`, returns early when the
task id is already planned, and otherwise expands the rule either over the
project's graph dependencies (`projects === 'dependencies'`) or on the project
itself. -/
def addTasksForProjectDependencyConfig (fuel : Nat) (project : ProjectGraphNode)
    (target : String) (configuration : Option String)
    (dependencyConfig : TargetDependencyConfig)
    (defaultDependencyConfigs : List (String × List TargetDependencyConfig))
    (projectGraph : ProjectGraph) (st : PlannerState) (path : List String) :
    Except PlannerError PlannerState :=
  match fuel with
  | 0 => .error .fuelExhausted
  | fuel + 1 =>
    let targetIdentifier := getId project.name target configuration
    let st := { st with seenSet := setAdd st.seenSet project.name }
    if path.contains targetIdentifier then
      .error (.exitError
        ("Could not execute " ++ path.headD "" ++
          " because it has a circular dependency")
        [String.intercalate " --> " (path ++ [targetIdentifier])] 1)
    else if (alookup st.tasksMap targetIdentifier).isSome then
      pure st
    else if dependencyConfig.projects = "dependencies" then
      match alookup projectGraph.dependencies project.name with
      | some dependencies =>
        addTasksForDependencies fuel project target configuration dependencyConfig
          dependencies defaultDependencyConfigs projectGraph st path targetIdentifier
      | none => pure st
    else
      addTasksForProjectTarget fuel
        { project := project, target := dependencyConfig.target,
          configuration := configuration, overrides := [],
          errorIfCannotFindConfiguration := true }
        defaultDependencyConfigs projectGraph st (path ++ [targetIdentifier])

/-- The `for (const dep of dependencies)` loop inside
`addTasksForProjectDependencyConfig`: a dependency that has the rule's target
gets its own task expansion (with the path extended by the current identifier);
a dependency that lacks it is recursed into with the same rule unless it is
already in the `seenSet`; an unresolvable dependency faults (the source would
dereference `undefined`). -/
def addTasksForDependencies (fuel : Nat) (project : ProjectGraphNode)
    (target : String) (configuration : Option String)
    (dependencyConfig : TargetDependencyConfig)
    (dependencies : List ProjectGraphDependency)
    (defaultDependencyConfigs : List (String × List TargetDependencyConfig))
    (projectGraph : ProjectGraph) (st : PlannerState) (path : List String)
    (targetIdentifier : String) :
    Except PlannerError PlannerState :=
  match fuel with
  | 0 => .error .fuelExhausted
  | fuel + 1 =>
    match dependencies with
    | [] => pure st
    | dep :: rest => do
      let st ←
        match resolveDepNode projectGraph dep.target with
        | none => Except.error (.typeError "Cannot read properties of undefined")
        | some depProject =>
          if projectHasTarget depProject dependencyConfig.target then
            addTasksForProjectTarget fuel
              { project := depProject, target := dependencyConfig.target,
                configuration := configuration, overrides := [],
                errorIfCannotFindConfiguration := false }
              defaultDependencyConfigs projectGraph st (path ++ [targetIdentifier])
          else if st.seenSet.contains dep.target then
            pure st
          else
            addTasksForProjectDependencyConfig fuel depProject target configuration
              dependencyConfig defaultDependencyConfigs projectGraph st path
      addTasksForDependencies fuel project target configuration dependencyConfig
        rest defaultDependencyConfigs projectGraph st path targetIdentifier

end

/-- The loop of `createTasksForProjectToRun` over `projectsToRun`:
`errorIfCannotFindConfiguration` is set exactly for the initiating project. -/
def createTasksForProjectsLoop (fuel : Nat) (projectsToRun : List ProjectGraphNode)
    (target : String) (configuration : Option String)
    (overrides : List (String × String)) (projectGraph : ProjectGraph)
    (initiatingProject : Option String)
    (defaultDependencyConfigs : List (String × List TargetDependencyConfig))
    (st : PlannerState) : Except PlannerError PlannerState :=
  match projectsToRun with
  | [] => pure st
  | project :: rest => do
    let st ← addTasksForProjectTarget fuel
      { project := project, target := target, configuration := configuration,
        overrides := overrides,
        errorIfCannotFindConfiguration := initiatingProject = some project.name }
      defaultDependencyConfigs projectGraph st []
    createTasksForProjectsLoop fuel rest target configuration overrides
      projectGraph initiatingProject defaultDependencyConfigs st

/-- The `createTasksForProjectToRun` entry point of `run-command/utils.ts`:
expands every requested project from an empty tasks map and seen set and
returns the planned tasks in insertion order (`Array.from(tasksMap.values())`). -/
def createTasksForProjectToRun (fuel : Nat) (projectsToRun : List ProjectGraphNode)
    (target : String) (configuration : Option String)
    (overrides : List (String × String)) (projectGraph : ProjectGraph)
    (initiatingProject : Option String)
    (defaultDependencyConfigs : List (String × List TargetDependencyConfig) := []) :
    Except PlannerError (List Task) := do
  let st ← createTasksForProjectsLoop fuel projectsToRun target configuration
    overrides projectGraph initiatingProject defaultDependencyConfigs
    { tasksMap := [], seenSet := [] }
  pure (st.tasksMap.map (·.2))

/-- The inclusion of planner task maps used for monotonicity reasoning:
all keys present in the first map are present in the second. -/
def tasksSub (m m' : List (String × Task)) : Prop :=
  ∀ k, (alookup m k).isSome → (alookup m' k).isSome

/-- The `configuration ??= project.data.targets?.[target]?.defaultConfiguration`
step of `createTask`, before the declaredness check. -/
def requestedConfiguration (project : ProjectGraphNode) (target : String)
    (configuration : Option String) : Option String :=
  match configuration with
  | none => (alookup project.data.targets target).bind (·.defaultConfiguration)
  | some c => some c

/-! ## Concrete planner scenarios used by the claims -/

/-- Project `A` whose `build` target depends on its own `build` target,
inducing a task-graph cycle. -/
def cycleNodeA : ProjectGraphNode :=
  { name := "A",
    data := { root := "libs/a",
              targets := [("build",
                { dependsOn := some [{ projects := "self", target := "build" }] })] } }

def cycleGraph : ProjectGraph := { nodes := [("A", cycleNodeA)] }

/-- Project `P` with two dependency rules on target `T`: `^A` then `^B`. -/
def seenP : ProjectGraphNode :=
  { name := "P",
    data := { root := "libs/p",
              targets := [("T",
                { dependsOn := some [{ projects := "dependencies", target := "A" },
                                     { projects := "dependencies", target := "B" }] })] } }

/-- Project `D` that has target `A` (itself with rule `^A`) but lacks `B`. -/
def seenD : ProjectGraphNode :=
  { name := "D",
    data := { root := "libs/d",
              targets := [("A",
                { dependsOn := some [{ projects := "dependencies", target := "A" }] })] } }

/-- Project `E` with both targets `A` and `B`. -/
def seenE : ProjectGraphNode :=
  { name := "E",
    data := { root := "libs/e", targets := [("A", {}), ("B", {})] } }

/-- Graph `P → D → E` for the seen-set scenario. -/
def seenGraph : ProjectGraph :=
  { nodes := [("P", seenP), ("D", seenD), ("E", seenE)],
    dependencies := [("P", [{ target := "D" }]), ("D", [{ target := "E" }]),
                     ("E", [])] }

/-- Same as `seenP` but with only the `^B` rule. -/
def seenP2 : ProjectGraphNode :=
  { name := "P",
    data := { root := "libs/p",
              targets := [("T",
                { dependsOn := some [{ projects := "dependencies", target := "B" }] })] } }

/-- Project `D` with no targets at all (so the `^B` rule lifts through it). -/
def seenD2 : ProjectGraphNode :=
  { name := "D", data := { root := "libs/d", targets := [] } }

/-- Graph `P → D → E` where `D` has no targets. -/
def seenGraph2 : ProjectGraph :=
  { nodes := [("P", seenP2), ("D", seenD2), ("E", seenE)],
    dependencies := [("P", [{ target := "D" }]), ("D", [{ target := "E" }]),
                     ("E", [])] }

/-- Initiating project `P` whose target `T` declares configuration `production`
and rule `^A`. -/
def cfgP : ProjectGraphNode :=
  { name := "P",
    data := { root := "libs/p",
              targets := [("T",
                { configurations := some ["production"],
                  dependsOn := some [{ projects := "dependencies", target := "A" }] })] } }

/-- Dependency project `D` whose target `A` has the same-project rule `U`, with
target `U` declaring no configurations. -/
def cfgD : ProjectGraphNode :=
  { name := "D",
    data := { root := "libs/d",
              targets := [("A",
                { dependsOn := some [{ projects := "self", target := "U" }] }),
                          ("U", {})] } }

def cfgGraph : ProjectGraph :=
  { nodes := [("P", cfgP), ("D", cfgD)],
    dependencies := [("P", [{ target := "D" }]), ("D", [])] }

/-- Initiating project used by the C3 witness. -/
def liftP : ProjectGraphNode :=
  { name := "P",
    data := { root := "libs/p", targets := [("T", {})] } }

/-- Dependency project `R` with target `A`, used by the C3 witness. -/
def liftR : ProjectGraphNode :=
  { name := "R", data := { root := "libs/r", targets := [("A", {})] } }

def liftGraph : ProjectGraph :=
  { nodes := [("P", liftP), ("R", liftR)],
    dependencies := [("P", [{ target := "R" }]), ("R", [])] }

/-- The state produced by expanding `^A` on `P` in `liftGraph`. -/
def liftStOut : PlannerState :=
  { tasksMap := [("R:A",
      { id := "R:A",
        target := { project := "R", target := "A", configuration := none },
        projectRoot := "libs/r", overrides := [] })],
    seenSet := ["P"] }

/-! ## tsc plugin option normalization (the plugin module's
`normalizePluginOptions` and `buildTscTargets`) -/

/-- The dynamic `typecheck` plugin option: absent (`undefined`), a boolean, or
an object with an optional `targetName`. -/
inductive TypecheckOption where
  | absent
  | bool (b : Bool)
  | obj (targetName : Option String)
deriving Repr, DecidableEq

/-- The dynamic `build` plugin option: absent (`undefined`), a boolean, or an
object with optional `targetName` and `configName`. -/
inductive BuildOption where
  | absent
  | bool (b : Bool)
  | obj (targetName : Option String) (configName : Option String)
deriving Repr, DecidableEq

/-- `TscPluginOptions` of the tsc plugin. -/
structure TscPluginOptions where
  typecheck : TypecheckOption := .absent
  build : BuildOption := .absent
deriving Repr, DecidableEq

/-- Normalized `typecheck` value (the tagged `Enabled` variant). -/
structure NormalizedTypecheck where
  targetName : String
deriving Repr, DecidableEq

/-- Normalized `build` value (the tagged `Enabled` variant). -/
structure NormalizedBuild where
  targetName : String
  configName : String
deriving Repr, DecidableEq

/-- `NormalizedPluginOptions`: `none` models the literal `false` variant. -/
structure NormalizedPluginOptions where
  typecheck : Option NormalizedTypecheck
  build : Option NormalizedBuild
deriving Repr, DecidableEq

/-- The `normalizePluginOptions` function of the tsc plugin module, translated
clause by clause: `typecheck` defaults to `{ targetName: 'typecheck' }`, is
disabled only by the literal `false`, and an object form defaults its
`targetName` to `'typecheck'`; `build` defaults to
`{ targetName: 'build', configName: 'tsconfig.lib.json' }`, is disabled by any
falsy value, and an object form defaults its `targetName` to
`defaultTypecheckTargetName` (the source reuses the typecheck default here) and
its `configName` to `'tsconfig.lib.json'`. Total by construction. -/
def normalizePluginOptions (pluginOptions : TscPluginOptions) :
    NormalizedPluginOptions :=
  let defaultTypecheckTargetName := "typecheck"
  let typecheck : Option NormalizedTypecheck :=
    if pluginOptions.typecheck = .bool false then none
    else
      match pluginOptions.typecheck with
      | .obj tn => some { targetName := tn.getD defaultTypecheckTargetName }
      | _ => some { targetName := defaultTypecheckTargetName }
  let defaultBuildTargetName := "build"
  let defaultBuildConfigName := "tsconfig.lib.json"
  let build : Option NormalizedBuild :=
    if pluginOptions.build = .absent ∨ pluginOptions.build = .bool false then none
    else
      match pluginOptions.build with
      | .obj tn cn =>
        some { targetName := tn.getD defaultTypecheckTargetName,
               configName := cn.getD defaultBuildConfigName }
      | _ => some { targetName := defaultBuildTargetName,
                    configName := defaultBuildConfigName }
  { typecheck := typecheck, build := build }

/-- A target produced by `buildTscTargets`. -/
structure TscTarget where
  dependsOnTargets : List String
  command : String
  cwd : String
  cache : Bool
deriving Repr, DecidableEq

/-- The `buildTscTargets` function of the tsc plugin module: one cached
`tsc --build` target per enabled option, each depending on `^targetName`. -/
def buildTscTargets (configFilePath projectRoot : String)
    (options : NormalizedPluginOptions) : List (String × TscTarget) :=
  let targets : List (String × TscTarget) := []
  let targets :=
    match options.typecheck with
    | some tc =>
      if (alookup targets tc.targetName).isSome then targets
      else targets ++ [(tc.targetName,
        { dependsOnTargets := ["^" ++ tc.targetName],
          command := "tsc --build --pretty --verbose",
          cwd := projectRoot, cache := true })]
    | none => targets
  let targets :=
    match options.build with
    | some b =>
      if (alookup targets b.targetName).isSome then targets
      else targets ++ [(b.targetName,
        { dependsOnTargets := ["^" ++ b.targetName],
          command := "tsc -b " ++ b.configName ++ " --pretty --verbose",
          cwd := projectRoot, cache := true })]
    | none => targets
  targets

/-! ## tsconfig sync generator (`sync.ts`): root project references -/

/-- A project-graph node as consumed by the sync generator: name and root. -/
structure SyncProjectNode where
  name : String
  root : String
deriving Repr, DecidableEq

/-- Modelled from the spec: the devkit path helper `joinPathFragments` is
external; for the plain relative roots used here it joins with a slash. -/
def joinPathFragments (a b : String) : String := a ++ "/" ++ b

/-- The tsconfig project filter of `syncGenerator` (sync.ts:57-65): the project
nodes, in `Object.values` insertion order, whose `root/tsconfig.json` exists in
the tree. -/
def tsconfigProjectNodeValues (nodes : List SyncProjectNode)
    (treeFiles : List String) : List SyncProjectNode :=
  nodes.filter
    (fun node => treeFiles.contains (joinPathFragments node.root "tsconfig.json"))

/-- The root-reference sync of `syncGenerator` (sync.ts:67-79): when at least
one project has a `tsconfig.json`, the existing references are kept and, for
every tsconfig project whose root is not in the set of already-referenced paths
(built once from the pre-existing references), a reference `{ path: root }` is
pushed; with no qualifying project the root tsconfig is not rewritten. The
result is the `references` path list of the root `tsconfig.json` after the
generator. -/
def syncRootTsconfigReferences (nodes : List SyncProjectNode)
    (treeFiles : List String) (rootReferences : List String) : List String :=
  let tsconfigProjects := tsconfigProjectNodeValues nodes treeFiles
  if tsconfigProjects.length > 0 then
    tsconfigProjects.foldl
      (fun refs node =>
        if rootReferences.contains node.root then refs else refs ++ [node.root])
      rootReferences
  else rootReferences

/-- The two-project workspace of the sync spec: `a` at `packages/a`, `b` at
`packages/b` (`b` depends on `a`). -/
def syncNodesAB : List SyncProjectNode :=
  [{ name := "a", root := "packages/a" }, { name := "b", root := "packages/b" }]

/-- The tree files of that workspace that matter to the root-reference sync. -/
def syncTreeAB : List String :=
  ["tsconfig.json", "tsconfig.options.json",
   "packages/a/tsconfig.json", "packages/a/tsconfig.lib.json",
   "packages/a/package.json",
   "packages/b/tsconfig.json", "packages/b/tsconfig.lib.json",
   "packages/b/package.json"]

/-! ## Lifecycle summaries (`run-one-terminal-output-life-cycle.ts` and
`tui-summary-life-cycle.ts`) -/

/-- Task terminal statuses (`TaskStatus`). -/
inductive TaskStatus where
  | success
  | failure
  | skipped
  | localCache
  | localCacheKeptExisting
  | remoteCache
deriving Repr, DecidableEq

/-- The slice of a task consumed by the lifecycle summaries. -/
structure LifecycleTask where
  id : String
  project : String
deriving Repr, DecidableEq

/-- Modelled from the spec: the chalk color/emphasis helpers
(`neoOutput.colors.*`, `output.colors.*`, `bold`, `dim`) are external and
presentation-only; the text content is unchanged. -/
def applyColor (s : String) : String := s

/-- A message passed to `neoOutput.success` / `neoOutput.error`. -/
structure NeoMessage where
  title : String
  bodyLines : List String
deriving Repr, DecidableEq

/-- The accumulator of `RunOneTerminalOutputLifeCycle`. -/
structure RunOneState where
  failedTasks : List LifecycleTask := []
  cachedTasks : List LifecycleTask := []
  skippedTasks : List LifecycleTask := []
deriving Repr, DecidableEq

/-- One element of the `taskResults` passed to `endTasks`. -/
structure TaskResultEvt where
  task : LifecycleTask
  status : TaskStatus
  code : Int
deriving Repr, DecidableEq

/-- `RunOneTerminalOutputLifeCycle.endTasks`: accumulate failed, skipped and
cached tasks in arrival order. -/
def runOneEndTasks (st : RunOneState) (taskResults : List TaskResultEvt) :
    RunOneState :=
  taskResults.foldl
    (fun st t =>
      if t.status = .failure then
        { st with failedTasks := st.failedTasks ++ [t.task] }
      else if t.status = .skipped then
        { st with skippedTasks := st.skippedTasks ++ [t.task] }
      else if t.status = .localCache then
        { st with cachedTasks := st.cachedTasks ++ [t.task] }
      else if t.status = .remoteCache then
        { st with cachedTasks := st.cachedTasks ++ [t.task] }
      else st)
    st

/-- The error message built by `RunOneTerminalOutputLifeCycle.endCommand` when
at least one task failed: `Failed tasks:` followed by `- id` for every failed
task and the hint to rerun with `--verbose`. -/
def runOneFailureMessage (initiatingProject : String) (targetArg : Option String)
    (st : RunOneState) : NeoMessage :=
  { title := "Running target \"" ++ initiatingProject ++ ":" ++
      targetArg.getD "undefined" ++ "\" failed",
    bodyLines :=
      [applyColor "Failed tasks:", ""] ++
      st.failedTasks.map (fun task => applyColor "-" ++ " " ++ task.id) ++
      ["", applyColor "Hint: run the command with" ++ " --verbose " ++
        applyColor "for more details."] }

/-- `RunOneTerminalOutputLifeCycle.endCommand`: silent when invoked by a parent
runner; a success summary when no task failed; otherwise an error message whose
body lists `- id` for every failed task and ends with the hint to rerun with
`--verbose`. -/
def runOneEndCommandMessage (invokedByRunner : Bool) (initiatingProject : String)
    (targetArg : Option String) (tasks : List LifecycleTask)
    (st : RunOneState) : Option NeoMessage :=
  if invokedByRunner then none
  else if st.failedTasks.length = 0 then
    some { title := "Successfully ran target " ++
             applyColor (targetArg.getD "undefined") ++ " for project " ++
             applyColor initiatingProject,
           bodyLines :=
             if st.cachedTasks.length > 0 then
               [applyColor
                 ("Nx read the output from the cache instead of running the command for " ++
                   toString st.cachedTasks.length ++ " out of " ++
                   toString tasks.length ++ " tasks.")]
             else [] }
  else some (runOneFailureMessage initiatingProject targetArg st)

/-- The `LEFT_PAD` constant of `tui-summary-life-cycle.ts`. -/
def LEFT_PAD : String := "   "

/-- The `SPACER` constant of `tui-summary-life-cycle.ts`. -/
def SPACER : String := "  "

/-- The `EXTENDED_LEFT_PAD` constant of `tui-summary-life-cycle.ts`. -/
def EXTENDED_LEFT_PAD : String := "      "

/-- The accumulator of `getTuiTerminalSummaryLifeCycle`. -/
structure TuiState where
  totalCachedTasks : Nat := 0
  totalSuccessfulTasks : Nat := 0
  totalFailedTasks : Nat := 0
  totalCompletedTasks : Nat := 0
  failedTasks : List String := []
  inProgressTasks : List String := []
  tasksToTerminalOutputs : List (String × String × TaskStatus) := []
  taskIdsInOrderOfCompletion : List String := []
deriving Repr, DecidableEq

/-- JS `Set.prototype.delete` on the insertion-ordered set model. -/
def setDelete (s : List String) (x : String) : List String :=
  s.filter (fun y => y ≠ x)

/-- The TUI `startTasks` handler: mark every task in progress. -/
def tuiStartTasks (st : TuiState) (ts : List String) : TuiState :=
  { st with inProgressTasks := ts.foldl setAdd st.inProgressTasks }

/-- The TUI `printTaskTerminalOutput` handler: record the task's output and its
completion order. -/
def tuiPrintTaskTerminalOutput (st : TuiState) (taskId : String)
    (taskStatus : TaskStatus) (terminalOutput : String) : TuiState :=
  { st with
    tasksToTerminalOutputs :=
      mapSet st.tasksToTerminalOutputs taskId (terminalOutput, taskStatus),
    taskIdsInOrderOfCompletion := st.taskIdsInOrderOfCompletion ++ [taskId] }

/-- The TUI `endTasks` handler: count completions per status and collect failed
task ids into the `failedTasks` set in arrival order. -/
def tuiEndTasks (st : TuiState) (taskResults : List (String × TaskStatus)) :
    TuiState :=
  taskResults.foldl
    (fun st t =>
      let st := { st with totalCompletedTasks := st.totalCompletedTasks + 1,
                          inProgressTasks := setDelete st.inProgressTasks t.1 }
      if t.2 = .remoteCache ∨ t.2 = .localCache ∨ t.2 = .localCacheKeptExisting then
        { st with totalCachedTasks := st.totalCachedTasks + 1,
                  totalSuccessfulTasks := st.totalSuccessfulTasks + 1 }
      else if t.2 = .success then
        { st with totalSuccessfulTasks := st.totalSuccessfulTasks + 1 }
      else if t.2 = .failure then
        { st with totalFailedTasks := st.totalFailedTasks + 1,
                  failedTasks := setAdd st.failedTasks t.1 }
      else st)
    st

/-- The `numFailedToPrint` bound of `printSummary`
(`tui-summary-life-cycle.ts:204`). -/
def numFailedToPrint : Nat := 5

/-- The `failedTasksForPrinting` slice of `printSummary`
(`tui-summary-life-cycle.ts:205-208`): only the first `numFailedToPrint`
failed task ids are listed. -/
def failedTasksForPrinting (failedTasks : List String) : List String :=
  failedTasks.take numFailedToPrint

/-- The per-task rows of the failure summary naming the listed failed tasks
(`tui-summary-life-cycle.ts:228-235`). -/
def tuiFailureListRows (failedTasks : List String) : List String :=
  (failedTasksForPrinting failedTasks).map
    (fun t => EXTENDED_LEFT_PAD ++ applyColor "-" ++ " " ++ applyColor t)

/-- The `...and N more...` row appended when more than `numFailedToPrint` tasks
failed (`tui-summary-life-cycle.ts:238-246`). -/
def tuiMoreRow (failedTasks : List String) : Option String :=
  if failedTasks.length > numFailedToPrint then
    some (applyColor (EXTENDED_LEFT_PAD ++ "...and " ++
      toString (failedTasks.length - numFailedToPrint) ++ " more..."))
  else none

/-- The `output.logCommandOutput` calls of `printSummary`'s per-task loop
(`tui-summary-life-cycle.ts:104-122`): every completed non-initiating task with
status `failure` gets its captured terminal output displayed. -/
def tuiDisplayedCommandOutputs (st : TuiState)
    (initiatingTaskId : Option String) : List (String × TaskStatus × String) :=
  st.taskIdsInOrderOfCompletion.filterMap
    (fun taskId =>
      if some taskId = initiatingTaskId then none
      else
        match alookup st.tasksToTerminalOutputs taskId with
        | some (terminalOutput, status) =>
          if status = .failure then some (taskId, status, terminalOutput)
          else none
        | none => none)

/-- Six failure results feeding the TUI summary. -/
def sixFailureResults : List (String × TaskStatus) :=
  [("p1:build", .failure), ("p2:build", .failure), ("p3:build", .failure),
   ("p4:build", .failure), ("p5:build", .failure), ("p6:build", .failure)]

/-! ## Import scanner (`pre-process-file.ts`)

The TypeScript scanner (`ts.createScanner`) is an external dependency of
`pre-process-file.ts`; it is modelled below from the spec (section 4.2: a
single-pass token scanner in which string and template literals are single
tokens whose content is never re-tokenized). The driver logic
(`processImports` and all `tryConsume*` helpers) is translated from the
source. -/

/-- The token kinds of the modelled scanner, named after `ts.SyntaxKind`. -/
inductive TokKind where
  | endOfFileToken
  | identifier
  | stringLiteral
  | noSubstitutionTemplateLiteral
  | templateHead
  | templateMiddle
  | templateTail
  | openBraceToken
  | closeBraceToken
  | openParenToken
  | closeParenToken
  | openBracketToken
  | closeBracketToken
  | commaToken
  | semicolonToken
  | colonToken
  | equalsToken
  | asteriskToken
  | dotToken
  | numericLiteral
  | importKeyword
  | exportKeyword
  | fromKeyword
  | requireKeyword
  | declareKeyword
  | moduleKeyword
  | typeKeyword
  | asKeyword
  | otherKeyword
  | unknownToken
deriving Repr, DecidableEq

/-- `isKeyword` of the driver: whether the token kind lies in TypeScript's
`FirstKeyword..LastKeyword` range. -/
def isKeywordTok (k : TokKind) : Bool :=
  match k with
  | .importKeyword | .exportKeyword | .fromKeyword | .requireKeyword
  | .declareKeyword | .moduleKeyword | .typeKeyword | .asKeyword
  | .otherKeyword => true
  | _ => false

/-- Modelled from the spec: the reserved and contextual keywords the TypeScript
scanner distinguishes from identifiers; the eight the driver inspects keep
their own kinds, the rest collapse to `otherKeyword`. -/
def keywordKind (s : List Char) : Option TokKind :=
  let str := String.mk s
  if str = "import" then some .importKeyword
  else if str = "export" then some .exportKeyword
  else if str = "from" then some .fromKeyword
  else if str = "require" then some .requireKeyword
  else if str = "declare" then some .declareKeyword
  else if str = "module" then some .moduleKeyword
  else if str = "type" then some .typeKeyword
  else if str = "as" then some .asKeyword
  else if ["await", "break", "case", "catch", "class", "const", "continue",
      "debugger", "default", "delete", "do", "else", "enum", "extends",
      "false", "finally", "for", "function", "if", "in", "instanceof", "new",
      "null", "return", "super", "switch", "this", "throw", "true", "try",
      "typeof", "var", "void", "while", "with", "let", "static", "yield",
      "async", "of", "namespace", "abstract", "is", "keyof", "readonly",
      "interface", "implements", "private", "protected", "public",
      "package", "get", "set", "any", "boolean", "number", "object",
      "string", "symbol", "undefined", "unique", "unknown", "never",
      "asserts", "infer"].contains str then some .otherKeyword
  else none

/-- `isWhiteSpaceSingleLine` from the source (the common code points). -/
def isWhiteSpaceSingleLine (c : Char) : Bool :=
  c.toNat = 32 ∨ c.toNat = 9 ∨ c.toNat = 11 ∨ c.toNat = 12 ∨ c.toNat = 160 ∨
  c.toNat = 133 ∨ c.toNat = 5760 ∨
  (8192 ≤ c.toNat ∧ c.toNat ≤ 8203) ∨ c.toNat = 8239 ∨ c.toNat = 8287 ∨
  c.toNat = 12288 ∨ c.toNat = 65279

/-- `isLineBreak` from the source. -/
def isLineBreak (c : Char) : Bool :=
  c.toNat = 10 ∨ c.toNat = 13 ∨ c.toNat = 8232 ∨ c.toNat = 8233

/-- `isWhiteSpaceLike` from the source. -/
def isWhiteSpaceLike (c : Char) : Bool :=
  isWhiteSpaceSingleLine c ∨ isLineBreak c

/-- A character that can start an identifier. -/
def isIdentStart (c : Char) : Bool :=
  c.isAlpha ∨ c = '_' ∨ c = '$'

/-- A character that can continue an identifier. -/
def isIdentPart (c : Char) : Bool :=
  c.isAlphanum ∨ c = '_' ∨ c = '$'

mutual

/-- Skip whitespace and comments ahead of the next token, returning the
remaining text and the number of characters consumed. Every step consumes at
least one character, so fuel one beyond the text length is never exhausted. -/
def skipTrivia : Nat → List Char → Nat → (List Char × Nat)
  | 0, cs, n => (cs, n)
  | fuel + 1, cs, n =>
    match cs with
    | [] => ([], n)
    | c :: rest =>
      if isWhiteSpaceLike c then skipTrivia fuel rest (n + 1)
      else if c = '/' then
        match rest with
        | '/' :: rest2 =>
          let after := rest2.dropWhile (fun ch => ¬ isLineBreak ch)
          skipTrivia fuel after (n + 2 + (rest2.length - after.length))
        | '*' :: rest2 => skipBlockComment fuel rest2 (n + 2)
        | _ => (c :: rest, n)
      else (c :: rest, n)

/-- Skip the remainder of a `/* ... */` comment (or to end of file). -/
def skipBlockComment : Nat → List Char → Nat → (List Char × Nat)
  | 0, cs, n => (cs, n)
  | fuel + 1, cs, n =>
    match cs with
    | [] => ([], n)
    | '*' :: '/' :: rest => skipTrivia fuel rest (n + 2)
    | _ :: rest => skipBlockComment fuel rest (n + 1)

end

/-- Lex a string literal body after the opening quote: returns the cooked
content and the remaining text after the closing quote, with the consumed
length (content plus quotes handled by the caller). Escapes keep the escaped
character. -/
def lexStringBody (quote : Char) : List Char → (List Char × List Char × Nat)
  | [] => ([], [], 0)
  | c :: rest =>
    if c = quote then ([], rest, 1)
    else if c = '\\' then
      match rest with
      | [] => (['\\'], [], 1)
      | e :: rest2 =>
        let res := lexStringBody quote rest2
        (e :: res.1, res.2.1, res.2.2 + 2)
    else
      let res := lexStringBody quote rest
      (c :: res.1, res.2.1, res.2.2 + 1)

/-- Lex a template token body after the opening backtick (or after `}` when
re-scanning): returns the token kind (`noSubstitutionTemplateLiteral` or
`templateHead` for a plain start; the caller maps these to middle/tail when
re-scanning), the cooked content, the remaining text and the consumed length. -/
def lexTemplateBody : List Char → (Bool × List Char × List Char × Nat)
  | [] => (true, [], [], 0)
  | c :: rest =>
    if c = '`' then (true, [], rest, 1)
    else if c = '$' then
      match rest with
      | '{' :: rest2 => (false, [], rest2, 2)
      | _ =>
        let res := lexTemplateBody rest
        (res.1, c :: res.2.1, res.2.2.1, res.2.2.2 + 1)
    else if c = '\\' then
      match rest with
      | [] => (true, ['\\'], [], 1)
      | e :: rest2 =>
        let res := lexTemplateBody rest2
        (res.1, e :: res.2.1, res.2.2.1, res.2.2.2 + 2)
    else
      let res := lexTemplateBody rest
      (res.1, c :: res.2.1, res.2.2.1, res.2.2.2 + 1)

/-- The modelled scanner state: `rest`/`pos` are the text and absolute position
after the current token; `token`, `tokenValue`, `tokenPos` and `tokenText`
describe the current token (`getToken`, `getTokenValue`, `getTokenPos`). -/
structure ScannerState where
  rest : List Char
  pos : Nat
  token : TokKind
  tokenValue : List Char
  tokenPos : Nat
  tokenText : List Char
deriving Repr, DecidableEq

/-- Lex one token from `text` (no leading trivia): kind, cooked value, consumed
length and remaining text. -/
def lexToken : List Char → (TokKind × List Char × Nat × List Char)
  | [] => (.endOfFileToken, [], 0, [])
  | c :: rest =>
    if c = '\'' ∨ c = '"' then
      let (v, r, n) := lexStringBody c rest
      (.stringLiteral, v, n + 1, r)
    else if c = '`' then
      let (tail, v, r, n) := lexTemplateBody rest
      (if tail then .noSubstitutionTemplateLiteral else .templateHead, v, n + 1, r)
    else if isIdentStart c then
      let idRest := rest.takeWhile isIdentPart
      let v := c :: idRest
      let r := rest.dropWhile isIdentPart
      match keywordKind v with
      | some k => (k, v, v.length, r)
      | none => (.identifier, v, v.length, r)
    else if c.isDigit then
      let ds := rest.takeWhile Char.isDigit
      (.numericLiteral, c :: ds, ds.length + 1, rest.dropWhile Char.isDigit)
    else if c = '{' then (.openBraceToken, [c], 1, rest)
    else if c = '}' then (.closeBraceToken, [c], 1, rest)
    else if c = '(' then (.openParenToken, [c], 1, rest)
    else if c = ')' then (.closeParenToken, [c], 1, rest)
    else if c = '[' then (.openBracketToken, [c], 1, rest)
    else if c = ']' then (.closeBracketToken, [c], 1, rest)
    else if c = ',' then (.commaToken, [c], 1, rest)
    else if c = ';' then (.semicolonToken, [c], 1, rest)
    else if c = ':' then (.colonToken, [c], 1, rest)
    else if c = '=' then (.equalsToken, [c], 1, rest)
    else if c = '*' then (.asteriskToken, [c], 1, rest)
    else if c = '.' then (.dotToken, [c], 1, rest)
    else (.unknownToken, [c], 1, rest)

/-- `scanner.scan()`: skip trivia, lex one token, record its position data. -/
def scan (st : ScannerState) : ScannerState :=
  let (rest1, skipped) := skipTrivia (st.rest.length + 1) st.rest 0
  let tokenPos := st.pos + skipped
  let (kind, value, n, rest2) := lexToken rest1
  { rest := rest2, pos := tokenPos + n, token := kind, tokenValue := value,
    tokenPos := tokenPos, tokenText := rest1.take n }

/-- `scanner.reScanTemplateToken(false)`: re-lex the current `}` token as the
continuation of a template literal, producing `templateMiddle` or
`templateTail`. -/
def reScanTemplateToken (st : ScannerState) : ScannerState :=
  match st.tokenText ++ st.rest with
  | '}' :: body =>
    let (tail, v, r, n) := lexTemplateBody body
    { rest := r, pos := st.tokenPos + n + 1,
      token := if tail then .templateTail else .templateMiddle,
      tokenValue := v, tokenPos := st.tokenPos,
      tokenText := ('}' :: body).take (n + 1) }
  | _ => scan st

/-- `scanner.setText(sourceText)` followed by an initial state: no token has
been scanned yet. -/
def initScanner (sourceText : List Char) : ScannerState :=
  { rest := sourceText, pos := 0, token := .unknownToken, tokenValue := [],
    tokenPos := 0, tokenText := [] }

/-- A `FileReference` of the scanner output (`fileName`, `pos`, `end`). -/
structure FileReference where
  fileName : String
  pos : Nat
  endPos : Nat
deriving Repr, DecidableEq

/-- The mutable state of `processImports`: the scanner, the collected
`importedFiles` and `ambientExternalModules` (with brace depth), `lastToken`,
`braceNesting` and the `externalModule` flag. -/
structure PreScanState where
  scanner : ScannerState
  importedFiles : List FileReference
  ambientExternalModules : List (FileReference × Int)
  lastToken : TokKind
  braceNesting : Int
  externalModule : Bool
deriving Repr, DecidableEq

/-- The `nextToken` helper of `processImports`: remember the previous token,
scan, and track brace nesting. -/
def nextToken (st : PreScanState) : PreScanState :=
  let lastToken := st.scanner.token
  let sc := scan st.scanner
  let braceNesting :=
    if sc.token = .openBraceToken then st.braceNesting + 1
    else if sc.token = .closeBraceToken then st.braceNesting - 1
    else st.braceNesting
  { st with scanner := sc, lastToken := lastToken, braceNesting := braceNesting }

/-- `getFileReference`: the current token's cooked value and position. -/
def getFileReference (sc : ScannerState) : FileReference :=
  { fileName := String.mk sc.tokenValue, pos := sc.tokenPos,
    endPos := sc.tokenPos + sc.tokenValue.length }

/-- `markAsExternalModuleIfTopLevel`. -/
def markAsExternalModuleIfTopLevel (st : PreScanState) : PreScanState :=
  if st.braceNesting = 0 then { st with externalModule := true } else st

/-- `recordModuleName`: push the current token as an imported file and mark the
file as an external module when at top level. -/
def recordModuleName (st : PreScanState) : PreScanState :=
  markAsExternalModuleIfTopLevel
    { st with importedFiles := st.importedFiles ++ [getFileReference st.scanner] }

/-- `recordAmbientExternalModule`. -/
def recordAmbientExternalModule (st : PreScanState) : PreScanState :=
  { st with ambientExternalModules :=
      st.ambientExternalModules ++ [(getFileReference st.scanner, st.braceNesting)] }

/-- `tryConsumeDeclare`: `declare module "mod"`. -/
def tryConsumeDeclare (st : PreScanState) : Bool × PreScanState :=
  if st.scanner.token = .declareKeyword then
    let st := nextToken st
    let st :=
      if st.scanner.token = .moduleKeyword then
        let st := nextToken st
        if st.scanner.token = .stringLiteral then recordAmbientExternalModule st
        else st
      else st
    (true, st)
  else (false, st)

/-- `tryConsumeRequireCall`: `require("mod")`, optionally consuming the current
token first and optionally accepting template literals. -/
def tryConsumeRequireCall (skipCurrentToken allowTemplateLiterals : Bool)
    (st : PreScanState) : Bool × PreScanState :=
  let st := if skipCurrentToken then nextToken st else st
  if st.scanner.token = .requireKeyword then
    let st := nextToken st
    let st :=
      if st.scanner.token = .openParenToken then
        let st := nextToken st
        if st.scanner.token = .stringLiteral ∨
            (allowTemplateLiterals ∧
              st.scanner.token = .noSubstitutionTemplateLiteral) then
          recordModuleName st
        else st
      else st
    (true, st)
  else (false, st)

/-- The `while (token !== CloseBraceToken && token !== EndOfFileToken)` clause
consumption loop shared by `tryConsumeImport` and `tryConsumeExport`. -/
def consumeUntilCloseBrace : Nat → PreScanState → PreScanState
  | 0, st => st
  | fuel + 1, st =>
    if st.scanner.token ≠ .closeBraceToken ∧
        st.scanner.token ≠ .endOfFileToken then
      consumeUntilCloseBrace fuel (nextToken st)
    else st

/-- The `} from "mod"` continuation shared by the brace clauses of
`tryConsumeImport` and `tryConsumeExport`. -/
def consumeFromClause (st : PreScanState) : PreScanState :=
  if st.scanner.token = .closeBraceToken then
    let st := nextToken st
    if st.scanner.token = .fromKeyword then
      let st := nextToken st
      if st.scanner.token = .stringLiteral then recordModuleName st else st
    else st
  else st

/-- `tryConsumeImport`: all the `import ...` forms of the source comments. -/
def tryConsumeImport (fuel : Nat) (st : PreScanState) : Bool × PreScanState :=
  if st.lastToken = .dotToken then (false, st)
  else if st.scanner.token = .importKeyword then
    let st := nextToken st
    if st.scanner.token = .openParenToken then
      let st := nextToken st
      if st.scanner.token = .stringLiteral ∨
          st.scanner.token = .noSubstitutionTemplateLiteral then
        (true, recordModuleName st)
      else (true, st)
    else if st.scanner.token = .stringLiteral then
      (true, recordModuleName st)
    else
      let st :=
        if st.scanner.token = .typeKeyword then
          let la := scan st.scanner
          if la.token ≠ .fromKeyword ∧
              (la.token = .asteriskToken ∨ la.token = .openBraceToken ∨
                la.token = .identifier ∨ isKeywordTok la.token) then
            nextToken st
          else st
        else st
      let step : Sum (Bool × PreScanState) PreScanState :=
        if st.scanner.token = .identifier ∨ isKeywordTok st.scanner.token then
          let st := nextToken st
          if st.scanner.token = .fromKeyword then
            let st := nextToken st
            if st.scanner.token = .stringLiteral then
              .inl (true, recordModuleName st)
            else .inr st
          else if st.scanner.token = .equalsToken then
            let (ok, st) := tryConsumeRequireCall true false st
            if ok then .inl (true, st) else .inr st
          else if st.scanner.token = .commaToken then .inr (nextToken st)
          else .inl (true, st)
        else .inr st
      match step with
      | .inl r => r
      | .inr st =>
        if st.scanner.token = .openBraceToken then
          let st := nextToken st
          let st := consumeUntilCloseBrace fuel st
          (true, consumeFromClause st)
        else if st.scanner.token = .asteriskToken then
          let st := nextToken st
          let st :=
            if st.scanner.token = .asKeyword then
              let st := nextToken st
              if st.scanner.token = .identifier ∨
                  isKeywordTok st.scanner.token then
                let st := nextToken st
                if st.scanner.token = .fromKeyword then
                  let st := nextToken st
                  if st.scanner.token = .stringLiteral then recordModuleName st
                  else st
                else st
              else st
            else st
          (true, st)
        else (true, st)
  else (false, st)

/-- `tryConsumeExport`: the `export ...` forms of the source comments. -/
def tryConsumeExport (fuel : Nat) (st : PreScanState) : Bool × PreScanState :=
  if st.scanner.token = .exportKeyword then
    let st := markAsExternalModuleIfTopLevel st
    let st := nextToken st
    let st :=
      if st.scanner.token = .typeKeyword then
        let la := scan st.scanner
        if la.token = .asteriskToken ∨ la.token = .openBraceToken then
          nextToken st
        else st
      else st
    if st.scanner.token = .openBraceToken then
      let st := nextToken st
      let st := consumeUntilCloseBrace fuel st
      (true, consumeFromClause st)
    else if st.scanner.token = .asteriskToken then
      let st := nextToken st
      let st :=
        if st.scanner.token = .fromKeyword then
          let st := nextToken st
          if st.scanner.token = .stringLiteral then recordModuleName st else st
        else st
      (true, st)
    else if st.scanner.token = .importKeyword then
      let st := nextToken st
      let st :=
        if st.scanner.token = .typeKeyword then
          let la := scan st.scanner
          if la.token = .identifier ∨ isKeywordTok la.token then nextToken st
          else st
        else st
      let st :=
        if st.scanner.token = .identifier ∨ isKeywordTok st.scanner.token then
          let st := nextToken st
          if st.scanner.token = .equalsToken then
            (tryConsumeRequireCall true false st).2
          else st
        else st
      (true, st)
    else (true, st)
  else (false, st)

/-- The dependency-list loop of `tryConsumeDefine`: record string literals
until `]` or end of file. -/
def defineDepsLoop : Nat → PreScanState → PreScanState
  | 0, st => st
  | fuel + 1, st =>
    if st.scanner.token ≠ .closeBracketToken ∧
        st.scanner.token ≠ .endOfFileToken then
      let st :=
        if st.scanner.token = .stringLiteral ∨
            st.scanner.token = .noSubstitutionTemplateLiteral then
          recordModuleName st
        else st
      defineDepsLoop fuel (nextToken st)
    else st

/-- `tryConsumeDefine`: AMD `define("mod", ["a", "b"], ...)`. -/
def tryConsumeDefine (fuel : Nat) (st : PreScanState) : Bool × PreScanState :=
  if st.scanner.token = .identifier ∧
      st.scanner.tokenValue = "define".toList then
    let st := nextToken st
    if st.scanner.token ≠ .openParenToken then (true, st)
    else
      let st := nextToken st
      let step : Sum PreScanState PreScanState :=
        if st.scanner.token = .stringLiteral ∨
            st.scanner.token = .noSubstitutionTemplateLiteral then
          let st := nextToken st
          if st.scanner.token = .commaToken then .inr (nextToken st)
          else .inl st
        else .inr st
      match step with
      | .inl st => (true, st)
      | .inr st =>
        if st.scanner.token ≠ .openBracketToken then (true, st)
        else
          let st := nextToken st
          (true, defineDepsLoop fuel st)
  else (false, st)

/-- The template-literal stack loop of `processImports`
(`pre-process-file.ts:920-957`): raw scans balance nested templates and braces,
consuming `import` forms found inside substitutions, and `}` tokens are
re-scanned to detect the template tail. -/
def templateStackLoop : Nat → List TokKind → PreScanState → PreScanState
  | 0, _, st => st
  | fuel + 1, stack, st =>
    if stack.isEmpty then st
    else
      match st.scanner.token with
      | .endOfFileToken => st
      | .importKeyword =>
        let st := (tryConsumeImport fuel st).2
        templateStackLoop fuel stack { st with scanner := scan st.scanner }
      | .templateHead =>
        templateStackLoop fuel (.templateHead :: stack)
          { st with scanner := scan st.scanner }
      | .openBraceToken =>
        templateStackLoop fuel (.openBraceToken :: stack)
          { st with scanner := scan st.scanner }
      | .closeBraceToken =>
        if stack.head? = some .templateHead then
          let sc := reScanTemplateToken st.scanner
          let stack := if sc.token = .templateTail then stack.tail else stack
          templateStackLoop fuel stack { st with scanner := scan sc }
        else
          templateStackLoop fuel stack.tail
            { st with scanner := scan st.scanner }
      | _ => templateStackLoop fuel stack { st with scanner := scan st.scanner }

/-- The main `while (true)` loop of `processImports`. -/
def processImportsLoop (fuel : Nat) (detectJavaScriptImports : Bool)
    (st : PreScanState) : PreScanState :=
  match fuel with
  | 0 => st
  | fuel + 1 =>
    if st.scanner.token = .endOfFileToken then st
    else
      let st :=
        if st.scanner.token = .templateHead then
          let st := templateStackLoop fuel [.templateHead]
            { st with scanner := scan st.scanner }
          nextToken st
        else st
      let (consumed, st) := tryConsumeDeclare st
      if consumed then processImportsLoop fuel detectJavaScriptImports st
      else
        let (consumed, st) := tryConsumeImport fuel st
        if consumed then processImportsLoop fuel detectJavaScriptImports st
        else
          let (consumed, st) := tryConsumeExport fuel st
          if consumed then processImportsLoop fuel detectJavaScriptImports st
          else if detectJavaScriptImports then
            let (consumed, st) := tryConsumeRequireCall false true st
            if consumed then processImportsLoop fuel detectJavaScriptImports st
            else
              let (consumed, st) := tryConsumeDefine fuel st
              if consumed then processImportsLoop fuel detectJavaScriptImports st
              else processImportsLoop fuel detectJavaScriptImports (nextToken st)
          else processImportsLoop fuel detectJavaScriptImports (nextToken st)

/-- `processImports`: scan the whole text for import forms, starting from a
fresh scanner; the fuel is proportional to the text length (every loop
iteration consumes at least one character). -/
def processImports (sourceText : List Char) (detectJavaScriptImports : Bool) :
    PreScanState :=
  let st : PreScanState :=
    { scanner := initScanner sourceText, importedFiles := [],
      ambientExternalModules := [], lastToken := .unknownToken,
      braceNesting := 0, externalModule := false }
  processImportsLoop (sourceText.length + 8) detectJavaScriptImports
    (nextToken st)

/-- `computeLineStarts` from `pre-process-file.ts:57-87`: positions of line
starts, handling CR, CRLF, LF and the non-ASCII line breaks. Every step
consumes at least one character, so fuel one beyond the text length is never
exhausted. -/
def computeLineStartsGo : Nat → List Char → Nat → Nat → List Nat → List Nat
  | 0, _, _, lineStart, result => result ++ [lineStart]
  | fuel + 1, cs, pos, lineStart, result =>
    match cs with
    | [] => result ++ [lineStart]
    | c :: rest =>
      if c.toNat = 13 then
        match rest with
        | c2 :: rest2 =>
          if c2.toNat = 10 then
            computeLineStartsGo fuel rest2 (pos + 2) (pos + 2)
              (result ++ [lineStart])
          else
            computeLineStartsGo fuel (c2 :: rest2) (pos + 1) (pos + 1)
              (result ++ [lineStart])
        | [] => result ++ [lineStart] ++ [pos + 1]
      else if c.toNat = 10 then
        computeLineStartsGo fuel rest (pos + 1) (pos + 1) (result ++ [lineStart])
      else if c.toNat > 127 ∧ isLineBreak c then
        computeLineStartsGo fuel rest (pos + 1) (pos + 1) (result ++ [lineStart])
      else computeLineStartsGo fuel rest (pos + 1) lineStart result

/-- `computeLineStarts` entry point. -/
def computeLineStarts (text : List Char) : List Nat :=
  computeLineStartsGo (text.length + 1) text 0 0 []

/-- The loop of `binarySearchKey` from `build-dependencies/utils.ts:119-148`,
over a sorted array of numbers with the identity key selector. -/
def binarySearchLoop (array : List Nat) (key : Nat) :
    Nat → Int → Int → Int
  | 0, low, _ => -low - 1
  | fuel + 1, low, high =>
    if low ≤ high then
      let middle := low + (high - low) / 2
      let midKey := array.getD middle.toNat 0
      if midKey = key then middle
      else if midKey < key then binarySearchLoop array key fuel (middle + 1) high
      else binarySearchLoop array key fuel low (middle - 1)
    else -low - 1

/-- `binarySearch` from `build-dependencies/utils.ts` specialized to line-start
arrays: `-1` on an empty array, otherwise the two's-complement convention of
`binarySearchKey` (`~low` when not found). -/
def binarySearch (array : List Nat) (value : Nat) : Int :=
  if array.isEmpty then -1
  else binarySearchLoop array value (array.length + 1) 0 (array.length - 1)

/-- `computeLineOfPosition` from `pre-process-file.ts:93-119`: the index of the
line containing `position` (the `~lineNumber - 1` adjustment when the position
is not itself a line start; the throw for a position before the first line
start cannot occur since line starts always begin with 0). -/
def computeLineOfPosition (lineStarts : List Nat) (position : Nat) : Int :=
  let lineNumber := binarySearch lineStarts position
  if lineNumber < 0 then (-lineNumber - 1) - 1 else lineNumber

/-- The kind of a comment range (`ts.CommentKind`). -/
inductive CommentKind where
  | singleLine
  | multiLine
deriving Repr, DecidableEq

/-- A comment range produced by the external AST traversal (`forEachComment` of
`tsutils.ts`). -/
structure CommentRange where
  pos : Nat
  endPos : Nat
  kind : CommentKind
deriving Repr, DecidableEq

/-- `commentText` from `tsutils.ts:22-32`: the text between the comment
delimiters (`substring(pos + 2, kind === SingleLine ? end : end - 2)`). -/
def commentText (sourceText : List Char) (c : CommentRange) : List Char :=
  let e := if c.kind = .singleLine then c.endPos else c.endPos - 2
  (sourceText.drop (c.pos + 2)).take (e - (c.pos + 2))

/-- JS `String.prototype.trim` on the whitespace classes of the source. -/
def jsTrim (s : List Char) : List Char :=
  ((s.dropWhile isWhiteSpaceLike).reverse.dropWhile isWhiteSpaceLike).reverse

/-- Whether `needle` occurs as a contiguous substring (the source tests this
with `sourceText.split('nx-ignore-next-line').length - 1 > 0`, a case-sensitive
occurrence check). -/
def containsSubstring : List Char → List Char → Bool
  | [], needle => needle.isEmpty
  | c :: rest, needle => needle.isPrefixOf (c :: rest) ∨ containsSubstring rest needle

/-- The characters of the opt-out marker. -/
def nxIgnoreTarget : List Char := "nx-ignore-next-line".toList

/-- The per-comment step of the nx-ignore filter
(`pre-process-file.ts:1008-1028`): a comment whose trimmed, lowercased text is
exactly the marker adds the line after its end to `ignoredLines` and drops
every already-collected import on that line. -/
def applyNxIgnoreComment (sourceText : List Char) (lineStarts : List Nat)
    (acc : List Int × List FileReference) (c : CommentRange) :
    List Int × List FileReference :=
  let commentTextContents := (jsTrim (commentText sourceText c)).map Char.toLower
  if commentTextContents ≠ nxIgnoreTarget then acc
  else
    let endLineNumberOfNxIgnoreComment := computeLineOfPosition lineStarts c.endPos
    let ignoredLine := endLineNumberOfNxIgnoreComment + 1
    let ignoredLines := acc.1 ++ [ignoredLine]
    let importedFiles := acc.2.filter
      (fun file => computeLineOfPosition lineStarts file.pos ≠ ignoredLine)
    (ignoredLines, importedFiles)

/-- The nx-ignore phase of `preProcessFile` (`pre-process-file.ts:996-1029`):
the whole phase is gated on a case-sensitive occurrence of the marker in the
source text; when active, every matching comment filters the imports on the
line following it. -/
def nxIgnorePhase (sourceText : List Char) (comments : List CommentRange)
    (importedFiles : List FileReference) : List Int × List FileReference :=
  if containsSubstring sourceText nxIgnoreTarget then
    let lineStarts := computeLineStarts sourceText
    comments.foldl (applyNxIgnoreComment sourceText lineStarts) ([], importedFiles)
  else ([], importedFiles)

/-- The name of a property assignment as the visitor classifies it
(`getPropertyAssignmentName`): an identifier (whose `getText()` is stored), a
string-literal name (whose `.text`, the cooked value, is stored), or any other
form. -/
inductive PropName where
  | ident (text : String)
  | strName (text : String)
  | other
deriving Repr, DecidableEq

/-- The slice of the TypeScript AST consumed by the loadChildren visitor.
Modelled from the spec: `ts.createSourceFile` is external; literal nodes carry
`pos` (start of leading trivia), `end` and `getText()` (the source text of the
node, quotes included). -/
inductive AstNode where
  | propertyAssignment (name : PropName) (init : AstNode)
  | stringLiteral (pos endPos : Nat) (text : String)
  | noSubTemplate (pos endPos : Nat) (text : String)
  | node (children : List AstNode)

/-- `getPropertyAssignmentName` from `pre-process-file.ts:1041-1052`. -/
def getPropertyAssignmentName : PropName → Option String
  | .ident t => some t
  | .strName t => some t
  | .other => none

/-- `getStringLiteralValue`: `node.getText().slice(1, -1)`. -/
def getStringLiteralValue (text : String) : String :=
  (text.drop 1).dropRight 1

/-- The body shared by both literal cases of the visitor: record the string
value as an imported file unless the line is ignored or the value is empty. -/
def visitLoadChildrenLiteral (lineStarts : List Nat) (ignoredLines : List Int)
    (pos endPos : Nat) (text : String) : List FileReference :=
  let nodeLineNumber := computeLineOfPosition lineStarts pos
  if ignoredLines.contains nodeLineNumber then []
  else
    let childrenExpr := getStringLiteralValue text
    if childrenExpr ≠ "" then
      [{ fileName := childrenExpr, pos := pos, endPos := endPos }]
    else []

mutual

/-- The `visitor` of the legacy `loadChildren` pass
(`pre-process-file.ts:1058-1088`): a property assignment named `loadChildren`
with a string-literal (or no-substitution template) initializer records the
string value (unless on an ignored line) and stops descending; any other
property assignment named `loadChildren` stops descending without recording;
everything else recurses into its children. -/
def visitorRefs (lineStarts : List Nat) (ignoredLines : List Int) :
    AstNode → List FileReference
  | .propertyAssignment name init =>
    if getPropertyAssignmentName name = some "loadChildren" then
      match init with
      | .stringLiteral pos endPos text =>
        visitLoadChildrenLiteral lineStarts ignoredLines pos endPos text
      | .noSubTemplate pos endPos text =>
        visitLoadChildrenLiteral lineStarts ignoredLines pos endPos text
      | _ => []
    else visitorRefs lineStarts ignoredLines init
  | .stringLiteral _ _ _ => []
  | .noSubTemplate _ _ _ => []
  | .node children => visitorRefsList lineStarts ignoredLines children

/-- The visitor applied to a list of sibling nodes in order
(`sourceFile.forEachChild`). -/
def visitorRefsList (lineStarts : List Nat) (ignoredLines : List Int) :
    List AstNode → List FileReference
  | [] => []
  | n :: rest =>
    visitorRefs lineStarts ignoredLines n ++
      visitorRefsList lineStarts ignoredLines rest

end

/-- One match attempt of the gate regex
`/loadChildren[\s]*:[\s]*['|"|\x60]/` at the start of `s` (note the character
class contains the pipe). -/
def loadChildrenRegexMatchAt (s : List Char) : Bool :=
  if ("loadChildren".toList).isPrefixOf s then
    let after := (s.drop 12).dropWhile isWhiteSpaceLike
    match after with
    | ':' :: after2 =>
      match after2.dropWhile isWhiteSpaceLike with
      | c :: _ => c = '\'' ∨ c = '|' ∨ c = '"' ∨ c = '`'
      | [] => false
    | _ => false
  else false

/-- `sourceText.match(angularLoadChildrenLegacySyntaxUsage)` as a Boolean: the
gate of the loadChildren pass (`pre-process-file.ts:1031-1033`). -/
def loadChildrenLegacySyntaxTest : List Char → Bool
  | [] => false
  | c :: rest => loadChildrenRegexMatchAt (c :: rest) ∨ loadChildrenLegacySyntaxTest rest

/-- The scanner-facing result of `preProcessFile` (the fields the dependency
builder consumes; the pragma-derived fields are not modelled since no claim
touches them). -/
structure PreProcessedFileInfo where
  importedFiles : List FileReference
  ambientExternalModules : Option (List String)
deriving Repr, DecidableEq

/-- `preProcessFile` from `pre-process-file.ts:544-1135`, restricted to the
import-collection pipeline: the token-scanner pass (`processImports`), the
nx-ignore filter, the legacy `loadChildren` visitor (both gated as in the
source), and the final merge of ambient external modules. The comment ranges
and the AST come from the external TypeScript parse and are taken as inputs. -/
def preProcessFile (sourceText : String)
    (readImportFiles detectJavaScriptImports : Bool)
    (comments : List CommentRange) (ast : List AstNode) : PreProcessedFileInfo :=
  let text := sourceText.toList
  let scanSt :=
    if readImportFiles then processImports text detectJavaScriptImports
    else
      { scanner := initScanner text, importedFiles := [],
        ambientExternalModules := [], lastToken := .unknownToken,
        braceNesting := 0, externalModule := false }
  let phase := nxIgnorePhase text comments scanSt.importedFiles
  let importedFiles :=
    if loadChildrenLegacySyntaxTest text then
      phase.2 ++ visitorRefsList (computeLineStarts text) phase.1 ast
    else phase.2
  if scanSt.externalModule then
    { importedFiles := importedFiles ++
        scanSt.ambientExternalModules.map (·.1),
      ambientExternalModules := none }
  else
    let merged := scanSt.ambientExternalModules.foldl
      (fun acc entry =>
        if entry.2 = 0 then (acc.1 ++ [entry.1.fileName], acc.2)
        else (acc.1, acc.2 ++ [entry.1]))
      (([] : List String), importedFiles)
    { importedFiles := merged.2,
      ambientExternalModules :=
        if merged.1.isEmpty then none else some merged.1 }

/-- An explicit dependency record of the graph builder
(`ExplicitDependency`). -/
structure ExplicitDependency where
  sourceProjectName : String
  targetProjectName : String
  sourceProjectFile : String
deriving Repr, DecidableEq

/-- Modelled from the spec: node's `path.extname` — the suffix from the last
dot of the final path segment (empty when there is no dot). -/
def extname (path : String) : String :=
  let revAfterDot := path.toList.reverse.takeWhile (fun c => c ≠ '.' ∧ c ≠ '/')
  if (path.toList.reverse.drop revAfterDot.length).head? = some '.' then
    String.mk ('.' :: revAfterDot.reverse)
  else ""

/-- One source file handed to the dependency builder: project name, file path,
content, and the externally parsed comment ranges and AST. -/
structure SourceFileInput where
  projectName : String
  file : String
  content : String
  comments : List CommentRange
  ast : List AstNode

/-- `buildExplicitTypeScriptDependencies` from the graph builder: for every
`.ts`/`.tsx`/`.js`/`.jsx` file, run `preProcessFile(content, true, true, file)`
and emit one explicit dependency per imported file the locator resolves. The
`TargetProjectLocator` is external; it is passed as a function (modelled from
the spec's project-locator contract, section 4.3). -/
def buildExplicitTypeScriptDependencies
    (locator : String → String → Option String)
    (files : List SourceFileInput) : List ExplicitDependency :=
  files.foldl
    (fun acc f =>
      let extension := extname f.file
      if extension ≠ ".ts" ∧ extension ≠ ".tsx" ∧ extension ≠ ".js" ∧
          extension ≠ ".jsx" then acc
      else
        let info := preProcessFile f.content true true f.comments f.ast
        info.importedFiles.foldl
          (fun acc imp =>
            match locator imp.fileName f.file with
            | some target =>
              acc ++ [{ sourceProjectName := f.projectName,
                        targetProjectName := target,
                        sourceProjectFile := f.file }]
            | none => acc)
          acc)
    []

/-- Modelled from the spec: the compiler path mappings of the scenario
workspace of §8 (S2/S5). -/
def specPathMappings : List (String × String) :=
  [("@proj/my-second-proj", "libs/proj2/index.ts"),
   ("@proj/project-3", "libs/proj3a/index.ts"),
   ("@proj/proj4ab", "libs/proj4ab/index.ts")]

/-- Modelled from the spec: the projects of that workspace (name and root). -/
def specProjectRoots : List (String × String) :=
  [("proj", "libs/proj"), ("proj2", "libs/proj2"), ("proj3a", "libs/proj3a"),
   ("proj4ab", "libs/proj4ab")]

/-- Modelled from the spec: the project locator of §4.3 on that workspace —
strip a `#` route fragment, map the specifier through the compiler path
mappings, and pick the project whose root is an ancestor of the mapped file
(steps 2-3, package metadata and relative resolution, never fire on these
specifiers; unresolved specifiers yield `none` and the caller drops the
edge). -/
def specLocator (specifier : String) (_file : String) : Option String :=
  let base := String.mk (specifier.toList.takeWhile (fun c => c ≠ '#'))
  match alookup specPathMappings base with
  | some mapped =>
    (specProjectRoots.find?
      (fun p => (p.2 ++ "/").toList.isPrefixOf mapped.toList)).map (·.1)
  | none => none

/-! ## Theorems -/

/-! ## Basic lemmas about the JS collection embeddings -/

theorem except_bind_ok {ε α β : Type} (a : α) (f : α → Except ε β) :
    (Except.ok a >>= f : Except ε β) = f a := rfl

theorem except_bind_err {ε α β : Type} (e : ε) (f : α → Except ε β) :
    (Except.error e >>= f : Except ε β) = .error e := rfl

theorem except_pure {ε α : Type} (a : α) : (pure a : Except ε α) = .ok a := rfl

theorem alookup_cons {α : Type} (a : String) (b : α) (m : List (String × α))
    (k : String) :
    alookup ((a, b) :: m) k = if a == k then some b else alookup m k := by
  simp only [alookup, List.find?]
  cases h : a == k <;> simp [h]

theorem alookup_mapSet {α : Type} (m : List (String × α)) (k' k : String) (v : α) :
    alookup (mapSet m k' v) k = if k' == k then some v else alookup m k := by
  induction m with
  | nil => simp [mapSet, alookup_cons, alookup]
  | cons p rest ih =>
    obtain ⟨a, b⟩ := p
    by_cases hak : a = k'
    · subst hak
      simp only [mapSet, if_pos rfl, alookup_cons]
      by_cases h : a = k
      · simp [h, alookup_cons]
      · simp [h, beq_iff_eq, alookup_cons]
    · simp only [mapSet, if_neg hak, alookup_cons, ih]
      by_cases h : a = k
      · subst h
        have : ¬ (k' == a) = true := by simpa [beq_iff_eq] using fun e => hak e.symm
        simp [this]
      · simp [h]

theorem tasksSub_refl (m : List (String × Task)) : tasksSub m m := fun _ h => h

theorem tasksSub_trans {m₁ m₂ m₃ : List (String × Task)} (h₁ : tasksSub m₁ m₂)
    (h₂ : tasksSub m₂ m₃) : tasksSub m₁ m₃ := fun k h => h₂ k (h₁ k h)

theorem tasksSub_mapSet (m : List (String × Task)) (k : String) (v : Task) :
    tasksSub m (mapSet m k v) := by
  intro k' h
  rw [alookup_mapSet]
  cases hk : k == k' <;> simp [h]

/-! ## Monotonicity of the planner: the tasks map only grows -/

theorem planner_mono (fuel : Nat) :
    (∀ params d g st path st',
      addTasksForProjectTarget fuel params d g st path = .ok st' →
      tasksSub st.tasksMap st'.tasksMap)
  ∧ (∀ pr t c cfgs d g st path st',
      addTasksForDependencyConfigs fuel pr t c cfgs d g st path = .ok st' →
      tasksSub st.tasksMap st'.tasksMap)
  ∧ (∀ pr t c cfg d g st path st',
      addTasksForProjectDependencyConfig fuel pr t c cfg d g st path = .ok st' →
      tasksSub st.tasksMap st'.tasksMap)
  ∧ (∀ pr t c cfg deps d g st path tid st',
      addTasksForDependencies fuel pr t c cfg deps d g st path tid = .ok st' →
      tasksSub st.tasksMap st'.tasksMap) := by
  induction fuel with
  | zero =>
    refine ⟨?_, ?_, ?_, ?_⟩ <;> intros <;> simp_all [addTasksForProjectTarget,
      addTasksForDependencyConfigs, addTasksForProjectDependencyConfig,
      addTasksForDependencies]
  | succ n ih =>
    obtain ⟨ih1, ih2, ih3, ih4⟩ := ih
    refine ⟨?_, ?_, ?_, ?_⟩
    · intro params d g st path st' h
      simp only [addTasksForProjectTarget] at h
      cases hct : createTask params with
      | error e =>
        simp only [hct, except_bind_err] at h
        exact Except.noConfusion h
      | ok task =>
        simp only [hct, except_bind_ok] at h
        cases hdc : getDependencyConfigs g params.project.name params.target d with
        | some cfgs =>
          simp only [hdc] at h
          cases hrec : addTasksForDependencyConfigs n params.project params.target
              params.configuration cfgs d g st path with
          | error e =>
            simp only [hrec, except_bind_err] at h
            exact Except.noConfusion h
          | ok st1 =>
            simp only [hrec, except_bind_ok, except_pure, Except.ok.injEq] at h
            subst h
            exact tasksSub_trans (ih2 _ _ _ _ _ _ _ _ _ hrec)
              (tasksSub_mapSet _ _ _)
        | none =>
          simp only [hdc, except_bind_ok, except_pure, Except.ok.injEq] at h
          subst h
          exact tasksSub_mapSet _ _ _
    · intro pr t c cfgs d g st path st' h
      simp only [addTasksForDependencyConfigs] at h
      cases cfgs with
      | nil =>
        simp only [except_pure, Except.ok.injEq] at h
        subst h; exact tasksSub_refl _
      | cons cfg rest =>
        simp only [] at h
        cases hrec : addTasksForProjectDependencyConfig n pr t c cfg d g st path with
        | error e =>
          simp only [hrec, except_bind_err] at h
          exact Except.noConfusion h
        | ok st1 =>
          simp only [hrec, except_bind_ok] at h
          exact tasksSub_trans (ih3 _ _ _ _ _ _ _ _ _ hrec)
            (ih2 _ _ _ _ _ _ _ _ _ h)
    · intro pr t c cfg d g st path st' h
      simp only [addTasksForProjectDependencyConfig] at h
      by_cases hpath : path.contains (getId pr.name t c)
      · simp only [hpath, if_true] at h
        exact Except.noConfusion h
      · simp only [hpath, Bool.false_eq_true, if_false] at h
        by_cases hmap : (alookup st.tasksMap (getId pr.name t c)).isSome
        · simp only [hmap, if_true, except_pure, Except.ok.injEq] at h
          subst h; exact tasksSub_refl _
        · simp only [hmap, Bool.false_eq_true, if_false] at h
          by_cases hdeps : cfg.projects = "dependencies"
          · simp only [hdeps, if_true] at h
            cases hadj : alookup g.dependencies pr.name with
            | some deps =>
              simp only [hadj] at h
              have h4 := ih4 _ _ _ _ _ _ _ _ _ _ _ h
              exact h4
            | none =>
              simp only [hadj, except_pure, Except.ok.injEq] at h
              subst h; exact tasksSub_refl _
          · simp only [hdeps, if_false] at h
            have h1 := ih1 _ _ _ _ _ _ h
            exact h1
    · intro pr t c cfg deps d g st path tid st' h
      simp only [addTasksForDependencies] at h
      cases deps with
      | nil =>
        simp only [except_pure, Except.ok.injEq] at h
        subst h; exact tasksSub_refl _
      | cons dep rest =>
        simp only [] at h
        cases hres : resolveDepNode g dep.target with
        | none =>
          simp only [hres, except_bind_err] at h
          exact Except.noConfusion h
        | some dp =>
          simp only [hres] at h
          by_cases hht : projectHasTarget dp cfg.target
          · simp only [hht, if_true] at h
            cases hrec : addTasksForProjectTarget n
                { project := dp, target := cfg.target, configuration := c,
                  overrides := [], errorIfCannotFindConfiguration := false }
                d g st (path ++ [tid]) with
            | error e =>
              simp only [hrec, except_bind_err] at h
              exact Except.noConfusion h
            | ok st1 =>
              simp only [hrec, except_bind_ok] at h
              exact tasksSub_trans (ih1 _ _ _ _ _ _ hrec)
                (ih4 _ _ _ _ _ _ _ _ _ _ _ h)
          · simp only [hht, Bool.false_eq_true, if_false] at h
            by_cases hseen : st.seenSet.contains dep.target
            · simp only [hseen, if_true, except_pure, except_bind_ok] at h
              exact ih4 _ _ _ _ _ _ _ _ _ _ _ h
            · simp only [hseen, Bool.false_eq_true, if_false] at h
              cases hrec : addTasksForProjectDependencyConfig n dp t c cfg d g st
                  path with
              | error e =>
                simp only [hrec, except_bind_err] at h
                exact Except.noConfusion h
              | ok st1 =>
                simp only [hrec, except_bind_ok] at h
                exact tasksSub_trans (ih3 _ _ _ _ _ _ _ _ _ hrec)
                  (ih4 _ _ _ _ _ _ _ _ _ _ _ h)

/-! ## createTask facts -/

theorem createTask_error_exitCode (p : TaskParams) (t : String) (b : List String)
    (code : Nat) (h : createTask p = .error (.exitError t b code)) : code = 1 := by
  unfold createTask at h
  by_cases h1 : projectHasTarget p.project p.target
  · rw [if_neg (by simp [h1])] at h
    simp only [] at h
    by_cases h2 : p.errorIfCannotFindConfiguration = true ∧
        truthy (match p.configuration with
          | none => (alookup p.project.data.targets p.target).bind
              (·.defaultConfiguration)
          | some c => some c) = true ∧
        ¬ truthy (resolveConfiguration p.project p.target p.configuration) = true
    · rw [if_pos h2] at h
      simp only [Except.error.injEq, PlannerError.exitError.injEq] at h
      exact h.2.2.symm
    · rw [if_neg h2] at h
      cases hio : interpolateOverrides p.overrides p.project.name p.project.data with
      | error m =>
        rw [hio] at h
        simp only [] at h
        simp at h
      | ok o =>
        rw [hio] at h
        simp only [] at h
        exact Except.noConfusion h
  · rw [if_pos (by simp [h1])] at h
    simp only [Except.error.injEq, PlannerError.exitError.injEq] at h
    exact h.2.2.symm

/-- A successfully created task records the id and qualified target computed by
`resolveConfiguration`. -/
theorem createTask_ok_shape (p : TaskParams) (task : Task)
    (h : createTask p = .ok task) :
    task.id = getId p.project.name p.target
        (resolveConfiguration p.project p.target p.configuration) ∧
    task.target = { project := p.project.name, target := p.target,
                    configuration :=
                      resolveConfiguration p.project p.target p.configuration } := by
  unfold createTask at h
  by_cases h1 : projectHasTarget p.project p.target
  · rw [if_neg (by simp [h1])] at h
    simp only [] at h
    by_cases h2 : p.errorIfCannotFindConfiguration = true ∧
        truthy (match p.configuration with
          | none => (alookup p.project.data.targets p.target).bind
              (·.defaultConfiguration)
          | some c => some c) = true ∧
        ¬ truthy (resolveConfiguration p.project p.target p.configuration) = true
    · rw [if_pos h2] at h
      exact Except.noConfusion h
    · rw [if_neg h2] at h
      cases hio : interpolateOverrides p.overrides p.project.name p.project.data with
      | error m =>
        rw [hio] at h
        simp only [] at h
        exact Except.noConfusion h
      | ok o =>
        rw [hio] at h
        simp only [Except.ok.injEq] at h
        subst h
        exact ⟨rfl, rfl⟩
  · rw [if_pos (by simp [h1])] at h
    exact Except.noConfusion h

/-- A task propagated by a dependency rule (empty overrides, no error flag) to a
project that has the target is always created successfully, with the requested
configuration kept only when declared. -/
theorem createTask_propagated (project : ProjectGraphNode) (target : String)
    (configuration : Option String)
    (ht : projectHasTarget project target = true) :
    createTask { project := project, target := target,
                 configuration := configuration, overrides := [],
                 errorIfCannotFindConfiguration := false } =
    .ok { id := getId project.name target
                  (resolveConfiguration project target configuration),
          target := { project := project.name, target := target,
                      configuration :=
                        resolveConfiguration project target configuration },
          projectRoot := project.data.root, overrides := [] } := by
  unfold createTask
  rw [if_neg (by simp [ht])]
  rw [if_neg (by simp)]
  rfl

/-! ## Every planner abort via output.error carries exit code 1 -/

theorem planner_exit_one (fuel : Nat) :
    (∀ params d g st path t b code,
      addTasksForProjectTarget fuel params d g st path =
        .error (.exitError t b code) → code = 1)
  ∧ (∀ pr tg c cfgs d g st path t b code,
      addTasksForDependencyConfigs fuel pr tg c cfgs d g st path =
        .error (.exitError t b code) → code = 1)
  ∧ (∀ pr tg c cfg d g st path t b code,
      addTasksForProjectDependencyConfig fuel pr tg c cfg d g st path =
        .error (.exitError t b code) → code = 1)
  ∧ (∀ pr tg c cfg deps d g st path tid t b code,
      addTasksForDependencies fuel pr tg c cfg deps d g st path tid =
        .error (.exitError t b code) → code = 1) := by
  induction fuel with
  | zero =>
    refine ⟨?_, ?_, ?_, ?_⟩ <;> intros <;> simp_all [addTasksForProjectTarget,
      addTasksForDependencyConfigs, addTasksForProjectDependencyConfig,
      addTasksForDependencies]
  | succ n ih =>
    obtain ⟨ih1, ih2, ih3, ih4⟩ := ih
    refine ⟨?_, ?_, ?_, ?_⟩
    · intro params d g st path t b code h
      simp only [addTasksForProjectTarget] at h
      cases hct : createTask params with
      | error e =>
        simp only [hct, except_bind_err, Except.error.injEq] at h
        subst h
        exact createTask_error_exitCode _ _ _ _ hct
      | ok task =>
        simp only [hct, except_bind_ok] at h
        cases hdc : getDependencyConfigs g params.project.name params.target d with
        | some cfgs =>
          simp only [hdc] at h
          cases hrec : addTasksForDependencyConfigs n params.project params.target
              params.configuration cfgs d g st path with
          | error e =>
            simp only [hrec, except_bind_err, Except.error.injEq] at h
            subst h
            exact ih2 _ _ _ _ _ _ _ _ _ _ _ hrec
          | ok st1 =>
            simp only [hrec, except_bind_ok, except_pure] at h
            exact Except.noConfusion h
        | none =>
          simp only [hdc, except_bind_ok, except_pure] at h
          exact Except.noConfusion h
    · intro pr tg c cfgs d g st path t b code h
      simp only [addTasksForDependencyConfigs] at h
      cases cfgs with
      | nil =>
        simp only [except_pure] at h
        exact Except.noConfusion h
      | cons cfg rest =>
        simp only [] at h
        cases hrec : addTasksForProjectDependencyConfig n pr tg c cfg d g st path with
        | error e =>
          simp only [hrec, except_bind_err, Except.error.injEq] at h
          subst h
          exact ih3 _ _ _ _ _ _ _ _ _ _ _ hrec
        | ok st1 =>
          simp only [hrec, except_bind_ok] at h
          exact ih2 _ _ _ _ _ _ _ _ _ _ _ h
    · intro pr tg c cfg d g st path t b code h
      simp only [addTasksForProjectDependencyConfig] at h
      by_cases hpath : path.contains (getId pr.name tg c)
      · simp only [hpath, if_true, Except.error.injEq,
          PlannerError.exitError.injEq] at h
        exact h.2.2.symm
      · simp only [hpath, Bool.false_eq_true, if_false] at h
        by_cases hmap : (alookup st.tasksMap (getId pr.name tg c)).isSome
        · simp only [hmap, if_true, except_pure] at h
          exact Except.noConfusion h
        · simp only [hmap, Bool.false_eq_true, if_false] at h
          by_cases hdeps : cfg.projects = "dependencies"
          · simp only [hdeps, if_true] at h
            cases hadj : alookup g.dependencies pr.name with
            | some deps =>
              simp only [hadj] at h
              exact ih4 _ _ _ _ _ _ _ _ _ _ _ _ _ h
            | none =>
              simp only [hadj, except_pure] at h
              exact Except.noConfusion h
          · simp only [hdeps, if_false] at h
            exact ih1 _ _ _ _ _ _ _ _ h
    · intro pr tg c cfg deps d g st path tid t b code h
      simp only [addTasksForDependencies] at h
      cases deps with
      | nil =>
        simp only [except_pure] at h
        exact Except.noConfusion h
      | cons dep rest =>
        simp only [] at h
        cases hres : resolveDepNode g dep.target with
        | none =>
          simp only [hres, except_bind_err, Except.error.injEq] at h
          exact PlannerError.noConfusion h
        | some dp =>
          simp only [hres] at h
          by_cases hht : projectHasTarget dp cfg.target
          · simp only [hht, if_true] at h
            cases hrec : addTasksForProjectTarget n
                { project := dp, target := cfg.target, configuration := c,
                  overrides := [], errorIfCannotFindConfiguration := false }
                d g st (path ++ [tid]) with
            | error e =>
              simp only [hrec, except_bind_err, Except.error.injEq] at h
              subst h
              exact ih1 _ _ _ _ _ _ _ _ hrec
            | ok st1 =>
              simp only [hrec, except_bind_ok] at h
              exact ih4 _ _ _ _ _ _ _ _ _ _ _ _ _ h
          · simp only [hht, Bool.false_eq_true, if_false] at h
            by_cases hseen : st.seenSet.contains dep.target
            · simp only [hseen, if_true, except_pure, except_bind_ok] at h
              exact ih4 _ _ _ _ _ _ _ _ _ _ _ _ _ h
            · simp only [hseen, Bool.false_eq_true, if_false] at h
              cases hrec : addTasksForProjectDependencyConfig n dp tg c cfg d g st
                  path with
              | error e =>
                simp only [hrec, except_bind_err, Except.error.injEq] at h
                subst h
                exact ih3 _ _ _ _ _ _ _ _ _ _ _ hrec
              | ok st1 =>
                simp only [hrec, except_bind_ok] at h
                exact ih4 _ _ _ _ _ _ _ _ _ _ _ _ _ h

theorem createTasksForProjectsLoop_exit_one (fuel : Nat)
    (projectsToRun : List ProjectGraphNode) :
    ∀ tg c o g ip d st t b code,
      createTasksForProjectsLoop fuel projectsToRun tg c o g ip d st =
        .error (.exitError t b code) → code = 1 := by
  induction projectsToRun with
  | nil =>
    intro tg c o g ip d st t b code h
    simp only [createTasksForProjectsLoop, except_pure] at h
    exact Except.noConfusion h
  | cons pr rest ih =>
    intro tg c o g ip d st t b code h
    simp only [createTasksForProjectsLoop] at h
    cases hrec : addTasksForProjectTarget fuel
        { project := pr, target := tg, configuration := c, overrides := o,
          errorIfCannotFindConfiguration := ip = some pr.name } d g st [] with
    | error e =>
      simp only [hrec, except_bind_err, Except.error.injEq] at h
      subst h
      exact (planner_exit_one fuel).1 _ _ _ _ _ _ _ _ hrec
    | ok st1 =>
      simp only [hrec, except_bind_ok] at h
      exact ih _ _ _ _ _ _ _ _ _ _ h

/-! ## The planner records the task of every expansion it completes -/

theorem addTasksForProjectTarget_adds (fuel : Nat) (params : TaskParams)
    (d : List (String × List TargetDependencyConfig)) (g : ProjectGraph)
    (st : PlannerState) (path : List String) (st' : PlannerState) (task : Task)
    (h : addTasksForProjectTarget fuel params d g st path = .ok st')
    (hct : createTask params = .ok task) :
    (alookup st'.tasksMap task.id).isSome := by
  cases fuel with
  | zero =>
    simp only [addTasksForProjectTarget] at h
    exact Except.noConfusion h
  | succ n =>
    simp only [addTasksForProjectTarget, hct, except_bind_ok] at h
    cases hdc : getDependencyConfigs g params.project.name params.target d with
    | some cfgs =>
      simp only [hdc] at h
      cases hrec : addTasksForDependencyConfigs n params.project params.target
          params.configuration cfgs d g st path with
      | error e =>
        simp only [hrec, except_bind_err] at h
        exact Except.noConfusion h
      | ok st1 =>
        simp only [hrec, except_bind_ok, except_pure, Except.ok.injEq] at h
        subst h
        simp [alookup_mapSet]
    | none =>
      simp only [hdc, except_bind_ok, except_pure, Except.ok.injEq] at h
      subst h
      simp [alookup_mapSet]

theorem addTasksForDependencies_adds (fuel : Nat) :
    ∀ pr tg c cfg deps d g st path tid st',
      addTasksForDependencies fuel pr tg c cfg deps d g st path tid = .ok st' →
      ∀ dep ∈ deps, ∀ dp, resolveDepNode g dep.target = some dp →
        projectHasTarget dp cfg.target = true →
        (alookup st'.tasksMap
          (getId dp.name cfg.target (resolveConfiguration dp cfg.target c))).isSome := by
  induction fuel with
  | zero =>
    intro pr tg c cfg deps d g st path tid st' h
    simp only [addTasksForDependencies] at h
    exact Except.noConfusion h
  | succ n ih =>
    intro pr tg c cfg deps d g st path tid st' h dep hdep dp hres hht
    cases deps with
    | nil => cases hdep
    | cons dep0 rest =>
      simp only [addTasksForDependencies] at h
      rcases List.mem_cons.mp hdep with hd | hd
      · subst hd
        simp only [hres, hht, if_true] at h
        cases hrec : addTasksForProjectTarget n
            { project := dp, target := cfg.target, configuration := c,
              overrides := [], errorIfCannotFindConfiguration := false }
            d g st (path ++ [tid]) with
        | error e =>
          simp only [hrec, except_bind_err] at h
          exact Except.noConfusion h
        | ok st1 =>
          simp only [hrec, except_bind_ok] at h
          have hadd := addTasksForProjectTarget_adds n _ d g st (path ++ [tid]) st1
            _ hrec (createTask_propagated dp cfg.target c hht)
          exact (planner_mono n).2.2.2 _ _ _ _ _ _ _ _ _ _ _ h _ hadd
      · cases hres0 : resolveDepNode g dep0.target with
        | none =>
          simp only [hres0, except_bind_err] at h
          exact Except.noConfusion h
        | some dp0 =>
          simp only [hres0] at h
          by_cases hht0 : projectHasTarget dp0 cfg.target
          · simp only [hht0, if_true] at h
            cases hrec : addTasksForProjectTarget n
                { project := dp0, target := cfg.target, configuration := c,
                  overrides := [], errorIfCannotFindConfiguration := false }
                d g st (path ++ [tid]) with
            | error e =>
              simp only [hrec, except_bind_err] at h
              exact Except.noConfusion h
            | ok st1 =>
              simp only [hrec, except_bind_ok] at h
              exact ih _ _ _ _ _ _ _ _ _ _ _ h dep hd dp hres hht
          · simp only [hht0, Bool.false_eq_true, if_false] at h
            by_cases hseen : st.seenSet.contains dep0.target
            · simp only [hseen, if_true, except_pure, except_bind_ok] at h
              exact ih _ _ _ _ _ _ _ _ _ _ _ h dep hd dp hres hht
            · simp only [hseen, Bool.false_eq_true, if_false] at h
              cases hrec : addTasksForProjectDependencyConfig n dp0 tg c cfg d g st
                  path with
              | error e =>
                simp only [hrec, except_bind_err] at h
                exact Except.noConfusion h
              | ok st1 =>
                simp only [hrec, except_bind_ok] at h
                exact ih _ _ _ _ _ _ _ _ _ _ _ h dep hd dp hres hht

/-! ## Claim theorems: task planner -/

/-- C1: whenever expanding a target-dependency rule reaches a task id that is
already on the current DFS `path`, the planner reports the circular-dependency
error whose body is the offending path of task ids (joined by ` --> `) and the
invocation aborts: in this embedding the `.error` outcome is `output.error`
followed by `process.exit`, so no task list is ever produced and no task runs. -/
theorem c1_cycle_reported (fuel : Nat) (project : ProjectGraphNode)
    (target : String) (configuration : Option String)
    (dependencyConfig : TargetDependencyConfig)
    (d : List (String × List TargetDependencyConfig)) (g : ProjectGraph)
    (st : PlannerState) (path : List String)
    (h : path.contains (getId project.name target configuration) = true) :
    addTasksForProjectDependencyConfig (fuel + 1) project target configuration
      dependencyConfig d g st path =
    .error (.exitError
      ("Could not execute " ++ path.headD "" ++
        " because it has a circular dependency")
      [String.intercalate " --> " (path ++ [getId project.name target configuration])]
      1) := by
  simp only [addTasksForProjectDependencyConfig, h, if_true]

/-- Witness for C1 at a concrete revisited path. -/
theorem c1_cycle_reported_witness :
    (["X:build"].contains (getId "X" "build" none) = true) ∧
    addTasksForProjectDependencyConfig 1 { name := "X", data := { root := "x" } }
      "build" none { projects := "dependencies", target := "build" } []
      { nodes := [] } { tasksMap := [], seenSet := [] } ["X:build"] =
    .error (.exitError
      ("Could not execute " ++ (["X:build"] : List String).headD "" ++
        " because it has a circular dependency")
      [String.intercalate " --> " (["X:build"] ++ [getId "X" "build" none])] 1) :=
  ⟨by decide,
   c1_cycle_reported 0 { name := "X", data := { root := "x" } } "build" none
     { projects := "dependencies", target := "build" } [] { nodes := [] }
     { tasksMap := [], seenSet := [] } ["X:build"] (by decide)⟩

/-- C2 counterexample: the planner run on the cyclic `cycleGraph` aborts with
exit code 1, not 2 — the claimed exit code 2 never occurs for this invocation
error. The source calls `process.exit(1)` at `run-command/utils.ts:177` (cycle)
and `:39`/`:56` (unknown target / configuration). -/
theorem c2_counterexample :
    createTasksForProjectToRun 10 [cycleNodeA] "build" none [] cycleGraph
      (some "A") [] =
      .error (.exitError
        "Could not execute A:build because it has a circular dependency"
        ["A:build --> A:build"] 1) ∧
    ∀ t b, createTasksForProjectToRun 10 [cycleNodeA] "build" none [] cycleGraph
      (some "A") [] ≠ .error (.exitError t b 2) := by
  refine ⟨by decide, ?_⟩
  intro t b h
  have h1 : createTasksForProjectToRun 10 [cycleNodeA] "build" none [] cycleGraph
      (some "A") [] =
      .error (.exitError
        "Could not execute A:build because it has a circular dependency"
        ["A:build --> A:build"] 1) := by decide
  rw [h1] at h
  simp only [Except.error.injEq, PlannerError.exitError.injEq] at h
  exact absurd h.2.2 (by decide)

/-- C2 (amended): whenever the planner aborts for an invocation error — a cycle
in the task graph, or an unknown target or configuration — the process
terminates with exit code 1 (the planner prints the error itself and calls
`process.exit(1)`; nothing propagates to a CLI layer that would set code 2). -/
theorem c2_exit_code_one (fuel : Nat) (projectsToRun : List ProjectGraphNode)
    (tg : String) (c : Option String) (o : List (String × String))
    (g : ProjectGraph) (ip : Option String)
    (d : List (String × List TargetDependencyConfig)) (t : String)
    (b : List String) (code : Nat)
    (h : createTasksForProjectToRun fuel projectsToRun tg c o g ip d =
      .error (.exitError t b code)) : code = 1 := by
  simp only [createTasksForProjectToRun] at h
  cases hrec : createTasksForProjectsLoop fuel projectsToRun tg c o g ip d
      { tasksMap := [], seenSet := [] } with
  | error e =>
    simp only [hrec, except_bind_err, Except.error.injEq] at h
    subst h
    exact createTasksForProjectsLoop_exit_one fuel projectsToRun _ _ _ _ _ _ _
      _ _ _ hrec
  | ok st1 =>
    simp only [hrec, except_bind_ok, except_pure] at h
    exact Except.noConfusion h

/-- Witness for C2 (amended) at the concrete cyclic scenario. -/
theorem c2_exit_code_one_witness :
    (createTasksForProjectToRun 10 [cycleNodeA] "build" none [] cycleGraph
      (some "A") [] =
      .error (.exitError
        "Could not execute A:build because it has a circular dependency"
        ["A:build --> A:build"] 1)) ∧ (1 : Nat) = 1 :=
  ⟨by decide,
   c2_exit_code_one 10 [cycleNodeA] "build" none [] cycleGraph (some "A") []
     "Could not execute A:build because it has a circular dependency"
     ["A:build --> A:build"] 1 (by decide)⟩

/-- C3 counterexample: in `seenGraph`, `P` has the rule `^B`, its direct
dependency `D` lacks target `B`, and the transitive dependency `E` (reached
through `D`) has target `B` — yet the planner produces no `E:B` task, because
expanding the earlier `^A` rule already put `D` into the shared seen set and
the `^B` expansion therefore skips `D`'s subtree. -/
theorem c3_counterexample :
    projectHasTarget seenD "B" = false ∧
    projectHasTarget seenE "B" = true ∧
    alookup seenGraph.dependencies "P" = some [{ target := "D" }] ∧
    alookup seenGraph.dependencies "D" = some [{ target := "E" }] ∧
    (createTasksForProjectToRun 20 [seenP] "T" none [] seenGraph (some "P")
      []).map (List.map Task.id) = .ok ["E:A", "D:A", "P:T"] ∧
    "E:B" ∉ (["E:A", "D:A", "P:T"] : List String) := by
  refine ⟨by decide, by decide, by decide, by decide, by decide, by decide⟩

/-- C3 (amended): when a `^T'` rule on `(P, T, C)` is expanded (the task id is
not yet planned; the expansion completes without error), every direct
dependency `D` of `P` that has target `T'` receives a planned task whose id is
`getId D T' C'` with `C'` the declared-or-dropped resolution of `C`; when `D`
lacks `T'`, the planner recurses through `D`'s own dependencies only if `D` is
not already in the run-wide seen set — a dependency seen during an earlier rule
expansion is skipped, so a transitive dependency with target `T'` may receive
no task (second conjunct), while the lift does occur when the seen set does not
interfere (third conjunct). -/
theorem c3_rule_expansion :
    (∀ (fuel : Nat) (pr : ProjectGraphNode) (tg : String) (c : Option String)
      (cfg : TargetDependencyConfig)
      (d : List (String × List TargetDependencyConfig)) (g : ProjectGraph)
      (st : PlannerState) (path : List String) (st' : PlannerState),
      cfg.projects = "dependencies" →
      alookup st.tasksMap (getId pr.name tg c) = none →
      addTasksForProjectDependencyConfig (fuel + 1) pr tg c cfg d g st path =
        .ok st' →
      ∀ dep ∈ (alookup g.dependencies pr.name).getD [], ∀ dp,
        resolveDepNode g dep.target = some dp →
        projectHasTarget dp cfg.target = true →
        (alookup st'.tasksMap
          (getId dp.name cfg.target (resolveConfiguration dp cfg.target c))).isSome)
    ∧ (createTasksForProjectToRun 20 [seenP] "T" none [] seenGraph (some "P")
        []).map (List.map Task.id) = .ok ["E:A", "D:A", "P:T"]
    ∧ (createTasksForProjectToRun 20 [seenP2] "T" none [] seenGraph2 (some "P")
        []).map (List.map Task.id) = .ok ["E:B", "P:T"] := by
  refine ⟨?_, by decide, by decide⟩
  intro fuel pr tg c cfg d g st path st' hcfg hmap h dep hdep dp hres hht
  simp only [addTasksForProjectDependencyConfig] at h
  by_cases hpath : path.contains (getId pr.name tg c)
  · simp only [hpath, if_true] at h
    exact Except.noConfusion h
  · simp only [hpath, Bool.false_eq_true, if_false] at h
    rw [hmap] at h
    simp only [Option.isSome_none, Bool.false_eq_true, if_false, hcfg, if_true] at h
    cases hadj : alookup g.dependencies pr.name with
    | some deps =>
      simp only [hadj] at h
      rw [hadj] at hdep
      simp only [Option.getD_some] at hdep
      exact addTasksForDependencies_adds fuel _ _ _ _ _ _ _ _ _ _ _ h dep hdep
        dp hres hht
    | none =>
      rw [hadj] at hdep
      simp at hdep

/-- Witness for the universal part of C3 (amended): in `liftGraph`, expanding
`^A` on `P` plans the task `R:A` for the direct dependency `R`. -/
theorem c3_rule_expansion_witness :
    (({ projects := "dependencies", target := "A" } : TargetDependencyConfig).projects
      = "dependencies") ∧
    (alookup ({ tasksMap := [], seenSet := [] } : PlannerState).tasksMap
      (getId liftP.name "T" none) = none) ∧
    (addTasksForProjectDependencyConfig 3 liftP "T" none
      { projects := "dependencies", target := "A" } [] liftGraph
      { tasksMap := [], seenSet := [] } [] = .ok liftStOut) ∧
    (({ target := "R" } : ProjectGraphDependency) ∈
      (alookup liftGraph.dependencies liftP.name).getD []) ∧
    (resolveDepNode liftGraph "R" = some liftR) ∧
    (projectHasTarget liftR "A" = true) ∧
    (alookup liftStOut.tasksMap
      (getId liftR.name "A" (resolveConfiguration liftR "A" none))).isSome :=
  ⟨by decide, by decide, by decide, by decide, by decide, by decide,
   c3_rule_expansion.1 2 liftP "T" none
     { projects := "dependencies", target := "A" } [] liftGraph
     { tasksMap := [], seenSet := [] } [] liftStOut
     (by decide) (by decide) (by decide) { target := "R" } (by decide) liftR
     (by decide) (by decide)⟩

/-- C4 counterexample: with initiating project `P` and requested configuration
`production`, the planner exits with a cannot-find-configuration error for the
task `(D, U)` created through the same-project rule on `D`'s target `A`, even
though `D` is not the initiating project — refuting the claim that this error
is raised only for the initiating project (and that propagated tasks silently
fall back). -/
theorem c4_counterexample :
    createTasksForProjectToRun 20 [cfgP] "T" (some "production") [] cfgGraph
      (some "P") [] =
      .error (.exitError
        "Cannot find configuration \x27production\x27 for project \x27D:U\x27" [] 1) ∧
    ("D" : String) ≠ "P" := by
  refine ⟨by decide, by decide⟩

/-- C4 (amended): `createTask` raises the cannot-find-configuration error
exactly when its `errorIfCannotFindConfiguration` flag is set (the planner sets
it for initiating projects and for tasks created via same-project rules), the
requested-or-defaulted configuration is truthy and the resolution drops it;
a task propagated with the flag unset (a `dependencies` rule) is always created
and carries the declared-or-dropped configuration — a requested configuration
that is not declared is dropped entirely rather than replaced by the project's
default configuration. -/
theorem c4_configuration_errors :
    (∀ (project : ProjectGraphNode) (target : String) (c : Option String),
      projectHasTarget project target = true →
      createTask { project := project, target := target, configuration := c,
                   overrides := [], errorIfCannotFindConfiguration := false } =
        .ok { id := getId project.name target
                      (resolveConfiguration project target c),
              target := { project := project.name, target := target,
                          configuration := resolveConfiguration project target c },
              projectRoot := project.data.root, overrides := [] })
    ∧ (∀ (project : ProjectGraphNode) (target : String) (cr : String),
        projectHasTargetAndConfiguration project target (some cr) = false →
        resolveConfiguration project target (some cr) = none)
    ∧ (∀ p : TaskParams, projectHasTarget p.project p.target = true →
        ((∃ t b code, createTask p = .error (.exitError t b code)) ↔
          (p.errorIfCannotFindConfiguration = true ∧
            truthy (requestedConfiguration p.project p.target p.configuration) = true ∧
            truthy (resolveConfiguration p.project p.target p.configuration) = false))) := by
  refine ⟨?_, ?_, ?_⟩
  · intro project target c ht
    exact createTask_propagated project target c ht
  · intro project target cr hnd
    simp [resolveConfiguration, hnd]
  · intro p ht
    constructor
    · rintro ⟨t, b, code, h⟩
      unfold createTask at h
      rw [if_neg (by simp [ht])] at h
      simp only [] at h
      by_cases h2 : p.errorIfCannotFindConfiguration = true ∧
          truthy (match p.configuration with
            | none => (alookup p.project.data.targets p.target).bind
                (·.defaultConfiguration)
            | some c => some c) = true ∧
          ¬ truthy (resolveConfiguration p.project p.target p.configuration) = true
      · refine ⟨h2.1, ?_, ?_⟩
        · have := h2.2.1
          simpa [requestedConfiguration] using this
        · have := h2.2.2
          simpa using this
      · rw [if_neg h2] at h
        cases hio : interpolateOverrides p.overrides p.project.name
            p.project.data with
        | error m =>
          rw [hio] at h
          simp only [] at h
          simp at h
        | ok o =>
          rw [hio] at h
          simp only [] at h
          exact Except.noConfusion h
    · rintro ⟨hflag, hreq, hdrop⟩
      have heq : createTask p = .error (.exitError
          ("Cannot find configuration \x27" ++
            (requestedConfiguration p.project p.target p.configuration).getD "" ++
            "\x27 for project \x27" ++ p.project.name ++ ":" ++ p.target ++
            "\x27") [] 1) := by
        unfold createTask
        rw [if_neg (by simp [ht])]
        simp only []
        rw [if_pos ⟨hflag, by simpa [requestedConfiguration] using hreq,
          by simp [hdrop]⟩]
        rfl
      exact ⟨_, _, _, heq⟩

/-- Witness for C4 (amended) at the concrete `cfgD`/`U` input: the propagated
form succeeds and the flagged form errors exactly per the characterization. -/
theorem c4_configuration_errors_witness :
    (projectHasTarget cfgD "U" = true ∧
      createTask { project := cfgD, target := "U", configuration := some "production",
                   overrides := [], errorIfCannotFindConfiguration := false } =
        .ok { id := getId cfgD.name "U"
                      (resolveConfiguration cfgD "U" (some "production")),
              target := { project := cfgD.name, target := "U",
                          configuration :=
                            resolveConfiguration cfgD "U" (some "production") },
              projectRoot := cfgD.data.root, overrides := [] }) ∧
    (projectHasTargetAndConfiguration cfgD "U" (some "production") = false ∧
      resolveConfiguration cfgD "U" (some "production") = none) := by
  refine ⟨⟨by decide, ?_⟩, ⟨by decide, ?_⟩⟩
  · exact c4_configuration_errors.1 cfgD "U" (some "production") (by decide)
  · exact c4_configuration_errors.2.1 cfgD "U" "production" (by decide)

/-- C10: `normalizePluginOptions` is total (it is a Lean function) and
normalizes exactly as the claim states, including the quirk that an
object-valued `build` with `targetName` omitted defaults to `'typecheck'`
(the typecheck default), not `'build'`. -/
theorem c10_normalizePluginOptions :
    (∀ o : TscPluginOptions,
      (normalizePluginOptions o).typecheck = none ↔ o.typecheck = .bool false) ∧
    (∀ o : TscPluginOptions, o.typecheck = .absent ∨ o.typecheck = .bool true →
      (normalizePluginOptions o).typecheck = some { targetName := "typecheck" }) ∧
    (∀ (o : TscPluginOptions) (tn : Option String), o.typecheck = .obj tn →
      (normalizePluginOptions o).typecheck =
        some { targetName := tn.getD "typecheck" }) ∧
    (∀ o : TscPluginOptions,
      (normalizePluginOptions o).build = none ↔
        (o.build = .absent ∨ o.build = .bool false)) ∧
    (∀ o : TscPluginOptions, o.build = .bool true →
      (normalizePluginOptions o).build =
        some { targetName := "build", configName := "tsconfig.lib.json" }) ∧
    (∀ (o : TscPluginOptions) (tn cn : Option String), o.build = .obj tn cn →
      (normalizePluginOptions o).build =
        some { targetName := tn.getD "typecheck",
               configName := cn.getD "tsconfig.lib.json" }) ∧
    (∀ (o : TscPluginOptions) (cn : Option String), o.build = .obj none cn →
      ((normalizePluginOptions o).build.map (·.targetName)) = some "typecheck") := by
  refine ⟨?_, ?_, ?_, ?_, ?_, ?_, ?_⟩
  · rintro ⟨tc, b⟩
    cases tc with
    | absent => simp [normalizePluginOptions]
    | bool bb => cases bb <;> simp [normalizePluginOptions]
    | obj tn => simp [normalizePluginOptions]
  · rintro ⟨tc, b⟩ h
    rcases h with h | h <;> simp only [] at h <;> subst h <;>
      simp [normalizePluginOptions]
  · rintro ⟨tc, b⟩ tn h
    simp only [] at h
    subst h
    simp [normalizePluginOptions]
  · rintro ⟨tc, b⟩
    cases b with
    | absent => simp [normalizePluginOptions]
    | bool bb => cases bb <;> simp [normalizePluginOptions]
    | obj tn cn => simp [normalizePluginOptions]
  · rintro ⟨tc, b⟩ h
    simp only [] at h
    subst h
    simp [normalizePluginOptions]
  · rintro ⟨tc, b⟩ tn cn h
    simp only [] at h
    subst h
    simp [normalizePluginOptions]
  · rintro ⟨tc, b⟩ cn h
    simp only [] at h
    subst h
    simp [normalizePluginOptions]

/-- Witness for C10 at the object-valued `build` with omitted `targetName`. -/
theorem c10_normalizePluginOptions_witness :
    (({ typecheck := .absent, build := .obj none none } :
        TscPluginOptions).build = .obj none none) ∧
    (normalizePluginOptions { typecheck := .absent, build := .obj none none }).build =
      some { targetName := (none : Option String).getD "typecheck",
             configName := (none : Option String).getD "tsconfig.lib.json" } :=
  ⟨rfl, c10_normalizePluginOptions.2.2.2.2.2.1
    { typecheck := .absent, build := .obj none none } none none rfl⟩

theorem foldl_push_references (rootRefs : List String) :
    ∀ (l : List SyncProjectNode) (acc : List String),
      l.foldl (fun refs node =>
          if rootRefs.contains node.root then refs else refs ++ [node.root]) acc =
      acc ++ (l.map SyncProjectNode.root).filter (fun r => !(rootRefs.contains r)) := by
  intro l
  induction l with
  | nil => intro acc; simp
  | cons n rest ih =>
    intro acc
    simp only [List.foldl_cons, List.map_cons, List.filter_cons]
    by_cases h : n.root ∈ rootRefs
    · have hc : rootRefs.contains n.root = true := by simpa using h
      rw [if_pos hc, ih acc]
      simp [h]
    · have hc : ¬ rootRefs.contains n.root = true := by simpa using h
      rw [if_neg hc, ih (acc ++ [n.root])]
      simp [h]

/-- C8: after the sync generator runs on a workspace (with pairwise-distinct
project roots) in which at least one project has a `tsconfig.json`, the root
references preserve every pre-existing reference in its original position
(whether or not its path exists) and append exactly the roots of tsconfig
projects not already referenced, in project order, without duplicates; on the
fresh two-project workspace the result is `packages/a`, `packages/b`, and
pre-existing references (including the dangling `packages/c`) are preserved
with nothing appended twice. -/
theorem c8_root_references_sync :
    (∀ (nodes : List SyncProjectNode) (treeFiles rootRefs : List String),
      (nodes.map SyncProjectNode.root).Nodup →
      tsconfigProjectNodeValues nodes treeFiles ≠ [] →
      (syncRootTsconfigReferences nodes treeFiles rootRefs =
        rootRefs ++ ((tsconfigProjectNodeValues nodes treeFiles).map
          SyncProjectNode.root).filter (fun r => !(rootRefs.contains r)) ∧
      (((tsconfigProjectNodeValues nodes treeFiles).map
          SyncProjectNode.root).filter (fun r => !(rootRefs.contains r))).Nodup ∧
      ∀ r ∈ ((tsconfigProjectNodeValues nodes treeFiles).map
          SyncProjectNode.root).filter (fun r => !(rootRefs.contains r)),
        r ∉ rootRefs))
    ∧ syncRootTsconfigReferences syncNodesAB syncTreeAB [] =
        ["packages/a", "packages/b"]
    ∧ syncRootTsconfigReferences syncNodesAB syncTreeAB
        ["packages/b", "packages/a", "packages/c"] =
        ["packages/b", "packages/a", "packages/c"] := by
  refine ⟨?_, by decide, by decide⟩
  intro nodes treeFiles rootRefs hnodup hex
  have hlen : (tsconfigProjectNodeValues nodes treeFiles).length > 0 := by
    cases h : tsconfigProjectNodeValues nodes treeFiles with
    | nil => exact absurd h hex
    | cons a l => simp [h]
  refine ⟨?_, ?_, ?_⟩
  · simp only [syncRootTsconfigReferences, if_pos hlen]
    exact foldl_push_references rootRefs _ rootRefs
  · have hsub : List.Sublist
        ((tsconfigProjectNodeValues nodes treeFiles).map SyncProjectNode.root)
        (nodes.map SyncProjectNode.root) :=
      (List.filter_sublist _).map _
    exact (hnodup.sublist hsub).filter _
  · intro r hr
    have := (List.mem_filter.mp hr).2
    simpa using this

/-- Witness for C8 on the workspace with pre-existing (partly dangling)
references. -/
theorem c8_root_references_sync_witness :
    ((syncNodesAB.map SyncProjectNode.root).Nodup) ∧
    (tsconfigProjectNodeValues syncNodesAB syncTreeAB ≠ []) ∧
    (syncRootTsconfigReferences syncNodesAB syncTreeAB
        ["packages/b", "packages/a", "packages/c"] =
      ["packages/b", "packages/a", "packages/c"] ++
        ((tsconfigProjectNodeValues syncNodesAB syncTreeAB).map
          SyncProjectNode.root).filter
          (fun r => !((["packages/b", "packages/a", "packages/c"] :
            List String).contains r)) ∧
    (((tsconfigProjectNodeValues syncNodesAB syncTreeAB).map
        SyncProjectNode.root).filter
        (fun r => !((["packages/b", "packages/a", "packages/c"] :
          List String).contains r))).Nodup ∧
    ∀ r ∈ ((tsconfigProjectNodeValues syncNodesAB syncTreeAB).map
        SyncProjectNode.root).filter
        (fun r => !((["packages/b", "packages/a", "packages/c"] :
          List String).contains r)),
      r ∉ (["packages/b", "packages/a", "packages/c"] : List String)) :=
  ⟨by decide, by decide,
   c8_root_references_sync.1 syncNodesAB syncTreeAB
     ["packages/b", "packages/a", "packages/c"] (by decide) (by decide)⟩

/-- C9 counterexample: with six failed tasks, the TUI end-of-command summary
lists only the first five (`numFailedToPrint`) failed task ids and replaces the
rest with a `...and 1 more...` row — the sixth failed task id `p6:build` is not
listed, refuting "all of them, not a bounded subset". -/
theorem c9_counterexample :
    (tuiEndTasks {} sixFailureResults).failedTasks =
      ["p1:build", "p2:build", "p3:build", "p4:build", "p5:build", "p6:build"] ∧
    "p6:build" ∈ (tuiEndTasks {} sixFailureResults).failedTasks ∧
    failedTasksForPrinting (tuiEndTasks {} sixFailureResults).failedTasks =
      ["p1:build", "p2:build", "p3:build", "p4:build", "p5:build"] ∧
    "p6:build" ∉ failedTasksForPrinting (tuiEndTasks {} sixFailureResults).failedTasks ∧
    (tuiFailureListRows (tuiEndTasks {} sixFailureResults).failedTasks).length = 5 ∧
    tuiMoreRow (tuiEndTasks {} sixFailureResults).failedTasks =
      some (EXTENDED_LEFT_PAD ++ "...and 1 more...") := by
  refine ⟨by decide, by decide, by decide, by decide, by decide, by decide⟩

/-- C9 (amended): when at least one task fails, the run-one terminal summary
(the `RunOneTerminalOutputLifeCycle`) lists every failed task id and ends with
the hint to rerun with `--verbose`; the TUI summary displays the captured
terminal output of every completed non-initiating failed task, but lists at
most `numFailedToPrint = 5` failed task ids (all of them exactly when at most
five failed). -/
theorem c9_failure_summary :
    (∀ (st : RunOneState) (ip : String) (ta : Option String)
      (tasks : List LifecycleTask),
      st.failedTasks ≠ [] →
      ∃ msg, runOneEndCommandMessage false ip ta tasks st = some msg ∧
        (∀ t ∈ st.failedTasks,
          (applyColor "-" ++ " " ++ t.id) ∈ msg.bodyLines) ∧
        (applyColor "Hint: run the command with" ++ " --verbose " ++
          applyColor "for more details.") ∈ msg.bodyLines)
    ∧ (∀ failedTasks : List String,
        failedTasksForPrinting failedTasks = failedTasks.take 5 ∧
        (failedTasks.length ≤ 5 → failedTasksForPrinting failedTasks = failedTasks))
    ∧ (∀ (st : TuiState) (iid : Option String) (tid out : String),
        alookup st.tasksToTerminalOutputs tid = some (out, .failure) →
        tid ∈ st.taskIdsInOrderOfCompletion →
        some tid ≠ iid →
        (tid, TaskStatus.failure, out) ∈ tuiDisplayedCommandOutputs st iid) := by
  refine ⟨?_, ?_, ?_⟩
  · intro st ip ta tasks hfail
    have hlen : ¬ st.failedTasks.length = 0 := by
      simpa [List.length_eq_zero] using hfail
    refine ⟨runOneFailureMessage ip ta st,
      by simp [runOneEndCommandMessage, hlen], ?_, ?_⟩
    · intro t ht
      simp only [runOneFailureMessage, List.cons_append, List.nil_append,
        List.mem_cons, List.mem_append, List.mem_map]
      exact Or.inr (Or.inr (Or.inl ⟨t, ht, rfl⟩))
    · simp [runOneFailureMessage]
  · intro failedTasks
    exact ⟨rfl, fun h => List.take_of_length_le (by simpa [numFailedToPrint] using h)⟩
  · intro st iid tid out hlook hmem hne
    refine List.mem_filterMap.mpr ⟨tid, hmem, ?_⟩
    simp [hne, hlook]

/-- Witness for C9 (amended) at a concrete failed run. -/
theorem c9_failure_summary_witness :
    (({ failedTasks := [{ id := "a:build", project := "a" }] } :
        RunOneState).failedTasks ≠ []) ∧
    (∃ msg, runOneEndCommandMessage false "a" (some "build") []
        { failedTasks := [{ id := "a:build", project := "a" }] } = some msg ∧
      (∀ t ∈ ({ failedTasks := [{ id := "a:build", project := "a" }] } :
          RunOneState).failedTasks,
        (applyColor "-" ++ " " ++ t.id) ∈ msg.bodyLines) ∧
      (applyColor "Hint: run the command with" ++ " --verbose " ++
        applyColor "for more details.") ∈ msg.bodyLines) :=
  ⟨by decide,
   c9_failure_summary.1 { failedTasks := [{ id := "a:build", project := "a" }] }
     "a" (some "build") [] (by decide)⟩

/-! ## Lemmas about the nx-ignore filter and the loadChildren visitor -/

theorem nxIgnoreFold_files_subset (sourceText : List Char) (lineStarts : List Nat) :
    ∀ (comments : List CommentRange) (acc : List Int × List FileReference)
      (f : FileReference),
      f ∈ (comments.foldl (applyNxIgnoreComment sourceText lineStarts) acc).2 →
      f ∈ acc.2 := by
  intro comments
  induction comments with
  | nil => intro acc f h; simpa using h
  | cons c rest ih =>
    intro acc f h
    simp only [List.foldl_cons] at h
    have h1 := ih _ _ h
    simp only [applyNxIgnoreComment] at h1
    by_cases hm : (jsTrim (commentText sourceText c)).map Char.toLower ≠ nxIgnoreTarget
    · simpa [hm] using h1
    · simp only [hm, if_false] at h1
      exact (List.mem_filter.mp h1).1

theorem nxIgnoreFold_drops (sourceText : List Char) (lineStarts : List Nat)
    (c : CommentRange) (f : FileReference)
    (hmatch : (jsTrim (commentText sourceText c)).map Char.toLower = nxIgnoreTarget)
    (hline : computeLineOfPosition lineStarts f.pos =
      computeLineOfPosition lineStarts c.endPos + 1) :
    ∀ (comments : List CommentRange) (acc : List Int × List FileReference),
      c ∈ comments →
      f ∉ (comments.foldl (applyNxIgnoreComment sourceText lineStarts) acc).2 := by
  intro comments
  induction comments with
  | nil => intro acc hc; cases hc
  | cons c0 rest ih =>
    intro acc hc
    rcases List.mem_cons.mp hc with hc0 | hc0
    · subst hc0
      simp only [List.foldl_cons]
      intro hmem
      have h1 := nxIgnoreFold_files_subset sourceText lineStarts rest _ f hmem
      have hcond : ¬((jsTrim (commentText sourceText c)).map Char.toLower ≠
          nxIgnoreTarget) := by simp [hmatch]
      simp only [applyNxIgnoreComment, if_neg hcond] at h1
      have h2 := (List.mem_filter.mp h1).2
      rw [hline] at h2
      simp at h2
    · intro hmem
      simp only [List.foldl_cons] at hmem
      exact ih _ hc0 hmem

theorem nxIgnoreFold_lines_mono (sourceText : List Char) (lineStarts : List Nat) :
    ∀ (comments : List CommentRange) (acc : List Int × List FileReference)
      (x : Int), x ∈ acc.1 →
      x ∈ (comments.foldl (applyNxIgnoreComment sourceText lineStarts) acc).1 := by
  intro comments
  induction comments with
  | nil => intro acc x h; simpa using h
  | cons c rest ih =>
    intro acc x h
    simp only [List.foldl_cons]
    refine ih _ _ ?_
    simp only [applyNxIgnoreComment]
    by_cases hm : (jsTrim (commentText sourceText c)).map Char.toLower ≠ nxIgnoreTarget
    · simpa [hm] using h
    · simp only [hm, if_false]
      exact List.mem_append.mpr (Or.inl h)

theorem nxIgnoreFold_collects (sourceText : List Char) (lineStarts : List Nat)
    (c : CommentRange)
    (hmatch : (jsTrim (commentText sourceText c)).map Char.toLower = nxIgnoreTarget) :
    ∀ (comments : List CommentRange) (acc : List Int × List FileReference),
      c ∈ comments →
      (computeLineOfPosition lineStarts c.endPos + 1) ∈
        (comments.foldl (applyNxIgnoreComment sourceText lineStarts) acc).1 := by
  intro comments
  induction comments with
  | nil => intro acc hc; cases hc
  | cons c0 rest ih =>
    intro acc hc
    rcases List.mem_cons.mp hc with hc0 | hc0
    · subst hc0
      simp only [List.foldl_cons]
      refine nxIgnoreFold_lines_mono sourceText lineStarts rest _ _ ?_
      have hcond : ¬((jsTrim (commentText sourceText c)).map Char.toLower ≠
          nxIgnoreTarget) := by simp [hmatch]
      simp only [applyNxIgnoreComment, if_neg hcond]
      simp
    · simp only [List.foldl_cons]
      exact ih _ hc0

theorem visitLoadChildrenLiteral_line_not_ignored (lineStarts : List Nat)
    (ignoredLines : List Int) (p e : Nat) (t : String) (f : FileReference)
    (h : f ∈ visitLoadChildrenLiteral lineStarts ignoredLines p e t) :
    computeLineOfPosition lineStarts f.pos ∉ ignoredLines := by
  simp only [visitLoadChildrenLiteral] at h
  by_cases hi : ignoredLines.contains (computeLineOfPosition lineStarts p) = true
  · rw [if_pos hi] at h
    cases h
  · rw [if_neg hi] at h
    by_cases hv : getStringLiteralValue t = ""
    · rw [if_neg (by simp [hv])] at h
      cases h
    · rw [if_pos hv] at h
      simp only [List.mem_singleton] at h
      subst h
      simpa using hi

mutual

theorem visitorRefs_line_not_ignored (lineStarts : List Nat)
    (ignoredLines : List Int) :
    ∀ (n : AstNode) (f : FileReference),
      f ∈ visitorRefs lineStarts ignoredLines n →
      computeLineOfPosition lineStarts f.pos ∉ ignoredLines
  | .propertyAssignment name init, f => by
    intro h
    simp only [visitorRefs] at h
    by_cases hn : getPropertyAssignmentName name = some "loadChildren"
    · simp only [hn, if_pos] at h
      match init with
      | .stringLiteral p e t =>
        exact visitLoadChildrenLiteral_line_not_ignored lineStarts ignoredLines
          p e t f h
      | .noSubTemplate p e t =>
        exact visitLoadChildrenLiteral_line_not_ignored lineStarts ignoredLines
          p e t f h
      | .propertyAssignment _ _ => simp at h
      | .node _ => simp at h
    · simp only [hn, if_false] at h
      exact visitorRefs_line_not_ignored lineStarts ignoredLines init f h
  | .stringLiteral p e t, f => by
    intro h
    simp [visitorRefs] at h
  | .noSubTemplate p e t, f => by
    intro h
    simp [visitorRefs] at h
  | .node children, f => by
    intro h
    simp only [visitorRefs] at h
    exact visitorRefsList_line_not_ignored lineStarts ignoredLines children f h

theorem visitorRefsList_line_not_ignored (lineStarts : List Nat)
    (ignoredLines : List Int) :
    ∀ (ns : List AstNode) (f : FileReference),
      f ∈ visitorRefsList lineStarts ignoredLines ns →
      computeLineOfPosition lineStarts f.pos ∉ ignoredLines
  | [], f => by
    intro h
    simp [visitorRefsList] at h
  | n :: rest, f => by
    intro h
    simp only [visitorRefsList, List.mem_append] at h
    rcases h with h | h
    · exact visitorRefs_line_not_ignored lineStarts ignoredLines n f h
    · exact visitorRefsList_line_not_ignored lineStarts ignoredLines rest f h

end

/-- C5 counterexample: the nx-ignore phase is gated on a case-sensitive
occurrence of the marker in the raw source text, while the per-comment
comparison lowercases. A file whose only marker comment is uppercase
(`// NX-IGNORE-NEXT-LINE`) satisfies the claim's condition — the comment's
trimmed, lowercased text is exactly the marker and the import sits on the very
next line — yet the import survives into `importedFiles`. -/
theorem c5_counterexample :
    ((jsTrim (commentText ("// NX-IGNORE-NEXT-LINE\nimport \x27m\x27;").toList
        { pos := 0, endPos := 22, kind := .singleLine })).map Char.toLower =
      nxIgnoreTarget) ∧
    (computeLineOfPosition
        (computeLineStarts ("// NX-IGNORE-NEXT-LINE\nimport \x27m\x27;").toList) 30 =
      computeLineOfPosition
        (computeLineStarts ("// NX-IGNORE-NEXT-LINE\nimport \x27m\x27;").toList) 22
        + 1) ∧
    (preProcessFile "// NX-IGNORE-NEXT-LINE\nimport \x27m\x27;" true true
        [{ pos := 0, endPos := 22, kind := .singleLine }] []).importedFiles =
      [{ fileName := "m", pos := 30, endPos := 31 }] := by
  refine ⟨by decide, by decide, by decide⟩

/-- C5 (amended): provided the raw source text contains a case-sensitive
occurrence of `nx-ignore-next-line` (the gate of the filter phase), every
comment whose trimmed, lowercased text is exactly the marker — line or block
comment, with any surrounding whitespace — suppresses every import reference
whose line is the line immediately after the comment's end: it is dropped both
from the scanner's collected imports and from the legacy `loadChildren`
visitor's output, so nothing on that line reaches `importedFiles` (stated for
files with no ambient module declarations, which are merged in afterwards from
a different source). -/
theorem c5_nx_ignore_suppression (sourceText : String)
    (comments : List CommentRange) (ast : List AstNode) (c : CommentRange)
    (f : FileReference) (hc : c ∈ comments)
    (hmatch : (jsTrim (commentText sourceText.toList c)).map Char.toLower =
      nxIgnoreTarget)
    (hgate : containsSubstring sourceText.toList nxIgnoreTarget = true)
    (hline : computeLineOfPosition (computeLineStarts sourceText.toList) f.pos =
      computeLineOfPosition (computeLineStarts sourceText.toList) c.endPos + 1)
    (hamb : (processImports sourceText.toList true).ambientExternalModules = []) :
    f ∉ (preProcessFile sourceText true true comments ast).importedFiles := by
  have hphase2 : f ∉ (nxIgnorePhase sourceText.toList comments
      (processImports sourceText.toList true).importedFiles).2 := by
    simp only [nxIgnorePhase, if_pos hgate]
    exact nxIgnoreFold_drops sourceText.toList
      (computeLineStarts sourceText.toList) c f hmatch hline comments _ hc
  have hphase1 : (computeLineOfPosition (computeLineStarts sourceText.toList)
        c.endPos + 1) ∈
      (nxIgnorePhase sourceText.toList comments
        (processImports sourceText.toList true).importedFiles).1 := by
    simp only [nxIgnorePhase, if_pos hgate]
    exact nxIgnoreFold_collects sourceText.toList
      (computeLineStarts sourceText.toList) c hmatch comments _ hc
  have hIF : f ∉ (if loadChildrenLegacySyntaxTest sourceText.toList then
      (nxIgnorePhase sourceText.toList comments
        (processImports sourceText.toList true).importedFiles).2 ++
        visitorRefsList (computeLineStarts sourceText.toList)
          (nxIgnorePhase sourceText.toList comments
            (processImports sourceText.toList true).importedFiles).1 ast
      else (nxIgnorePhase sourceText.toList comments
        (processImports sourceText.toList true).importedFiles).2) := by
    by_cases hl : loadChildrenLegacySyntaxTest sourceText.toList = true
    · rw [if_pos hl]
      intro hm
      rcases List.mem_append.mp hm with hm | hm
      · exact hphase2 hm
      · have hni := visitorRefsList_line_not_ignored
          (computeLineStarts sourceText.toList) _ ast f hm
        rw [hline] at hni
        exact hni hphase1
    · rw [if_neg hl]
      exact hphase2
  intro hmem
  simp only [preProcessFile, if_true] at hmem
  rw [hamb] at hmem
  simp only [List.map_nil, List.append_nil, List.foldl_nil] at hmem
  by_cases he : (processImports sourceText.toList true).externalModule = true
  · rw [if_pos he] at hmem
    exact hIF hmem
  · rw [if_neg he] at hmem
    exact hIF hmem

theorem lexTemplateBody_swallows :
    ∀ (s rest : List Char), (∀ c ∈ s, c ≠ '`' ∧ c ≠ '$' ∧ c ≠ '\\') →
      lexTemplateBody (s ++ '`' :: rest) = (true, s, rest, s.length + 1) := by
  intro s
  induction s with
  | nil =>
    intro rest _
    rw [lexTemplateBody.eq_def]
    simp
  | cons c cs ih =>
    intro rest h
    have hc := h c (List.mem_cons_self c cs)
    have hrest : ∀ x ∈ cs, x ≠ '`' ∧ x ≠ '$' ∧ x ≠ '\\' :=
      fun x hx => h x (List.mem_cons_of_mem c hx)
    rw [List.cons_append, lexTemplateBody.eq_def]
    simp [hc.1, hc.2.1, hc.2.2, ih rest hrest]

theorem lexStringBody_swallows :
    ∀ (q : Char) (s rest : List Char), (∀ c ∈ s, c ≠ q ∧ c ≠ '\\') →
      lexStringBody q (s ++ q :: rest) = (s, rest, s.length + 1) := by
  intro q s
  induction s with
  | nil =>
    intro rest _
    rw [lexStringBody.eq_def]
    simp
  | cons c cs ih =>
    intro rest h
    have hc := h c (List.mem_cons_self c cs)
    have hrest : ∀ x ∈ cs, x ≠ q ∧ x ≠ '\\' :=
      fun x hx => h x (List.mem_cons_of_mem c hx)
    rw [List.cons_append, lexStringBody.eq_def]
    simp [hc.1, hc.2, ih rest hrest]

/-- Witness for C5 (amended): the lowercase marker comment drops the `require`
on the following line. -/
theorem c5_nx_ignore_suppression_witness :
    ({ fileName := "@proj/proj4ab", pos := 31, endPos := 44 } : FileReference) ∉
      (preProcessFile "// nx-ignore-next-line\nrequire(\x27@proj/proj4ab\x27);"
        true true [{ pos := 0, endPos := 22, kind := .singleLine }]
        []).importedFiles :=
  c5_nx_ignore_suppression _ _ _
    { pos := 0, endPos := 22, kind := .singleLine } _
    (by simp) (by decide) (by decide) (by decide) (by decide)

set_option maxRecDepth 100000 in
/-- C6: content inside string and template literals is swallowed by the lexer
as a single token value — the body of any template literal (here for bodies
free of backtick, `$` and backslash) and of any string literal (bodies free of
the quote and backslash) is consumed whole through its closing delimiter, so
import/require text inside it is never tokenized — and on the spec scenarios
the scanner collects no imported files from stringified imports (S4 file with
an import inside a double-quoted string, a single-quoted string and a
template) nor from template literals containing import/require text (S4
file-3), while a genuine import statement after such a template literal still
yields its specifier. -/
theorem c6_literal_content_ignored :
    (∀ (s rest : List Char), (∀ c ∈ s, c ≠ '`' ∧ c ≠ '$' ∧ c ≠ '\\') →
      lexTemplateBody (s ++ '`' :: rest) = (true, s, rest, s.length + 1)) ∧
    (∀ (q : Char) (s rest : List Char), (∀ c ∈ s, c ≠ q ∧ c ≠ '\\') →
      lexStringBody q (s ++ q :: rest) = (s, rest, s.length + 1)) ∧
    (processImports ("\"import \x7ba\x7d from \x27@proj/my-second-proj\x27;\";\n\x27await import(\"@proj/my-second-proj\");\x27;\n`require(\x27@proj/my-second-proj\x27);`").toList
        true).importedFiles = [] ∧
    (processImports ("`$\x7bTree\x7d`;\n``;\n`import \x7b A \x7d from \x27@proj/my-second-proj\x27`;\n`import \x7b B, C, D \x7d from \x27@proj/project-3\x27`;\n`require(\x27@proj/proj4ab\x27)`;").toList
        true).importedFiles = [] ∧
    (processImports ("`import \x7ba\x7d from \x27zzz\x27`;\nimport \x7ba\x7d from \x27@proj/my-second-proj\x27;").toList
        true).importedFiles =
      [{ fileName := "@proj/my-second-proj", pos := 41, endPos := 61 }] :=
  ⟨lexTemplateBody_swallows, lexStringBody_swallows, by decide, by decide,
    by decide⟩

set_option maxRecDepth 100000 in
/-- C7 counterexample: a property assignment whose name is the string literal
`"loadChildren"` with a string-literal initializer (on no ignored line)
satisfies the claim's conditions — `getPropertyAssignmentName` classifies it
as `loadChildren` and the visitor itself would record the value — but the
whole pass is gated on the regex `loadChildren[\s]*:[\s]*` + quote, which the
quoted property name does not match, so `preProcessFile` records nothing and
no edge arises. -/
theorem c7_counterexample :
    getPropertyAssignmentName (.strName "loadChildren") = some "loadChildren" ∧
    visitorRefsList
      (computeLineStarts
        ("const a = \x7b \"loadChildren\": \x27@proj/proj4ab#a\x27 \x7d;").toList)
      []
      [.node [.propertyAssignment (.strName "loadChildren")
        (.stringLiteral 27 45 "\x27@proj/proj4ab#a\x27")]] =
      [{ fileName := "@proj/proj4ab#a", pos := 27, endPos := 45 }] ∧
    loadChildrenLegacySyntaxTest
      ("const a = \x7b \"loadChildren\": \x27@proj/proj4ab#a\x27 \x7d;").toList =
      false ∧
    (preProcessFile "const a = \x7b \"loadChildren\": \x27@proj/proj4ab#a\x27 \x7d;"
      true true []
      [.node [.propertyAssignment (.strName "loadChildren")
        (.stringLiteral 27 45 "\x27@proj/proj4ab#a\x27")]]).importedFiles = [] ∧
    buildExplicitTypeScriptDependencies specLocator
      [{ projectName := "proj", file := "libs/proj/file-1.ts",
         content := "const a = \x7b \"loadChildren\": \x27@proj/proj4ab#a\x27 \x7d;",
         comments := [],
         ast := [.node [.propertyAssignment (.strName "loadChildren")
           (.stringLiteral 27 45 "\x27@proj/proj4ab#a\x27")]] }] = [] :=
  ⟨rfl, by decide, by decide, by decide, by decide⟩

set_option maxRecDepth 100000 in
/-- C7 (amended): when the source text matches the gate regex, every reference
the loadChildren visitor collects from the parsed AST (property assignments
named `loadChildren` — via an identifier or string-literal name — whose
initializer is a string literal or no-substitution template on no ignored
line, with a non-empty value) lands in `preProcessFile`'s `importedFiles`
(stated for files with no ambient module declarations); in particular the file
`const a = { loadChildren: ...proj4ab#a... }` yields exactly that one imported
file, and the dependency builder with the spec workspace's locator emits
exactly one edge from `proj` to `proj4ab`. -/
theorem c7_load_children :
    (∀ (sourceText : String) (comments : List CommentRange)
       (ast : List AstNode) (f : FileReference),
       loadChildrenLegacySyntaxTest sourceText.toList = true →
       (processImports sourceText.toList true).ambientExternalModules = [] →
       f ∈ visitorRefsList (computeLineStarts sourceText.toList)
         (nxIgnorePhase sourceText.toList comments
           (processImports sourceText.toList true).importedFiles).1 ast →
       f ∈ (preProcessFile sourceText true true comments ast).importedFiles) ∧
    (preProcessFile "const a = \x7b loadChildren: \x27@proj/proj4ab#a\x27 \x7d;"
      true true []
      [.node [.propertyAssignment (.ident "loadChildren")
        (.stringLiteral 25 43 "\x27@proj/proj4ab#a\x27")]]).importedFiles =
      [{ fileName := "@proj/proj4ab#a", pos := 25, endPos := 43 }] ∧
    buildExplicitTypeScriptDependencies specLocator
      [{ projectName := "proj", file := "libs/proj/file-1.ts",
         content := "const a = \x7b loadChildren: \x27@proj/proj4ab#a\x27 \x7d;",
         comments := [],
         ast := [.node [.propertyAssignment (.ident "loadChildren")
           (.stringLiteral 25 43 "\x27@proj/proj4ab#a\x27")]] }] =
      [{ sourceProjectName := "proj", targetProjectName := "proj4ab",
         sourceProjectFile := "libs/proj/file-1.ts" }] := by
  refine ⟨?_, by decide, by decide⟩
  intro sourceText comments ast f hgate hamb hvis
  have hIF : f ∈ (if loadChildrenLegacySyntaxTest sourceText.toList = true then
      (nxIgnorePhase sourceText.toList comments
        (processImports sourceText.toList true).importedFiles).2 ++
        visitorRefsList (computeLineStarts sourceText.toList)
          (nxIgnorePhase sourceText.toList comments
            (processImports sourceText.toList true).importedFiles).1 ast
      else (nxIgnorePhase sourceText.toList comments
        (processImports sourceText.toList true).importedFiles).2) := by
    rw [if_pos hgate]
    exact List.mem_append.mpr (Or.inr hvis)
  simp only [preProcessFile, if_true]
  rw [hamb]
  simp only [List.map_nil, List.append_nil, List.foldl_nil]
  by_cases he : (processImports sourceText.toList true).externalModule = true
  · rw [if_pos he]
    exact hIF
  · rw [if_neg he]
    exact hIF

set_option maxRecDepth 100000 in
/-- Witness for C7 (amended): the identifier-named `loadChildren` reference of
the positive file reaches `importedFiles`. -/
theorem c7_load_children_witness :
    ({ fileName := "@proj/proj4ab#a", pos := 25, endPos := 43 } :
        FileReference) ∈
      (preProcessFile "const a = \x7b loadChildren: \x27@proj/proj4ab#a\x27 \x7d;"
        true true []
        [.node [.propertyAssignment (.ident "loadChildren")
          (.stringLiteral 25 43 "\x27@proj/proj4ab#a\x27")]]).importedFiles :=
  c7_load_children.1 _ [] _ _ (by decide) (by decide) (by decide)

/-- Witness for C6 at a concrete template body containing import text. -/
theorem c6_literal_content_ignored_witness :
    lexTemplateBody (("import x from \x27zzz\x27").toList ++ '`' :: []) =
      (true, ("import x from \x27zzz\x27").toList, ([] : List Char),
        ("import x from \x27zzz\x27").toList.length + 1) :=
  c6_literal_content_ignored.1 _ _ (by decide)

end Nx
